import Mathlib

/-!
Verification development for the tf4m bulk-upload dental data manager.

This file gives a shallow embedding, in Lean 4, of the classification /
cache / reconciliation core of the application:

* `src/core/models.py`          — `DataType`, `MatchStatus`, `FileData`, `PatientData`
* `src/core/file_analyzer.py`   — `FileAnalyzer` (folder discovery, IOS/CBCT/main
                                  classification, pixel-content heuristics)
* `src/core/match_cache.py`     — `CacheEntry`, `MatchCache` (folder fingerprint,
                                  serialization, cached-match application)
* `src/core/project_manager.py` — manual reassignment of files between slots

Modelling conventions:

* Python floats are modelled as rationals (`ℚ`); every constant appearing in the
  code (0.3, 0.7, 0.9, thresholds …) is an exact decimal, and the code only ever
  compares or copies these values, so `ℚ` is faithful for the properties below.
* Filesystem I/O is abstracted into explicit data: a directory listing is a
  `List Entry`, the result of `os.stat`-walking a folder is a `StatResult`,
  and the pixel data behind `PIL.Image` is an `RGBImage`.  Primitive probes that
  wrap external libraries (pydicom sniffing, `Image.open` succeeding) become
  fields of `FSFile`.
* Python dicts are association lists with Python's update-in-place-or-append
  semantics (`dictInsert`); iteration order is insertion order, as in CPython.
* MD5 digests are modelled injectively: a digest is represented by the data that
  determines the hashed string (`Digest.contents` / `Digest.timeFallback`).
  Hash collisions are outside the scope of every claim considered here.
* Mutable Python objects shared between the slot structure and
  `file_lookup` in `MatchCache._apply_cached_matches` are modelled by routing
  paths through a store (`ApplyState.store`) and resolving them at the end,
  which reproduces CPython aliasing exactly.
-/

/- ### models.py — enumerations and records -/

/-- `models.DataType`: the closed enumeration of semantic slots.  (NOTE: the
classifier source also mentions `DataType.FACIAL_PHOTO`, but no such member
exists in `models.py`; evaluating that attribute raises `AttributeError`.) -/
inductive DataType : Type where
  | CBCT_DICOM
  | IOS_UPPER
  | IOS_LOWER
  | INTRAORAL_PHOTO
  | TELERADIOGRAPHY
  | ORTHOPANTOMOGRAPHY
  | EXCLUDE
  deriving DecidableEq, Repr

/-- `models.MatchStatus`. -/
inductive MatchStatus : Type where
  | MATCHED
  | UNMATCHED
  | MISSING
  | AMBIGUOUS
  | MANUAL
  deriving DecidableEq, Repr

/-- The `.value` string of a `DataType` member. -/
def DataType.value : DataType → String
  | .CBCT_DICOM => "cbct_dicom"
  | .IOS_UPPER => "ios_upper"
  | .IOS_LOWER => "ios_lower"
  | .INTRAORAL_PHOTO => "intraoral_photo"
  | .TELERADIOGRAPHY => "teleradiography"
  | .ORTHOPANTOMOGRAPHY => "orthopantomography"
  | .EXCLUDE => "exclude"

/-- `DataType(value)`: the enum constructor; `none` models the `ValueError`
raised on an unknown value. -/
def DataType.fromValue (s : String) : Option DataType :=
  if s = "cbct_dicom" then some .CBCT_DICOM
  else if s = "ios_upper" then some .IOS_UPPER
  else if s = "ios_lower" then some .IOS_LOWER
  else if s = "intraoral_photo" then some .INTRAORAL_PHOTO
  else if s = "teleradiography" then some .TELERADIOGRAPHY
  else if s = "orthopantomography" then some .ORTHOPANTOMOGRAPHY
  else if s = "exclude" then some .EXCLUDE
  else none

/-- The `.value` string of a `MatchStatus` member. -/
def MatchStatus.value : MatchStatus → String
  | .MATCHED => "matched"
  | .UNMATCHED => "unmatched"
  | .MISSING => "missing"
  | .AMBIGUOUS => "ambiguous"
  | .MANUAL => "manual"

/-- `MatchStatus(value)`; `none` models the `ValueError` on an unknown value. -/
def MatchStatus.fromValue (s : String) : Option MatchStatus :=
  if s = "matched" then some .MATCHED
  else if s = "unmatched" then some .UNMATCHED
  else if s = "missing" then some .MISSING
  else if s = "ambiguous" then some .AMBIGUOUS
  else if s = "manual" then some .MANUAL
  else none

/-- `models.FileData`: a classified file.  `metadata` is a string-keyed dict,
modelled as an association list in insertion order. -/
structure FileData where
  path : String
  data_type : Option DataType := none
  confidence : ℚ := 0
  status : MatchStatus := .UNMATCHED
  metadata : List (String × String) := []
  deriving DecidableEq, Repr

/-- `models.PatientData`.  Fields that no claim touches (upload status, NIfTI
conversion, zip packaging) are not part of the classification state proper and
are omitted; `_run_post_processing` only writes those fields. -/
structure PatientData where
  patient_id : String
  folder_path : String
  cbct_folder : Option String := none
  ios_folder : Option String := none
  cbct_files : List FileData := []
  ios_upper : Option FileData := none
  ios_lower : Option FileData := none
  intraoral_photos : List FileData := []
  teleradiography : Option FileData := none
  orthopantomography : Option FileData := none
  unmatched_files : List FileData := []
  validation_errors : List String := []
  manually_complete : Bool := false
  manual_completion_note : String := ""
  deriving DecidableEq, Repr

/-- Helper: the list an `Optional[FileData]` slot contributes to
`get_all_files`. -/
def optSlot : Option FileData → List FileData
  | none => []
  | some fd => [fd]

/-- `PatientData.get_all_files`: cbct files, the four singleton slots and the
photo list, then the unmatched pool, in the order the source appends them. -/
def PatientData.get_all_files (p : PatientData) : List FileData :=
  p.cbct_files ++ optSlot p.ios_upper ++ optSlot p.ios_lower ++
    p.intraoral_photos ++ optSlot p.teleradiography ++
    optSlot p.orthopantomography ++ p.unmatched_files

/- ### Kernel-evaluable rational arithmetic

The standard `ℚ` operations (`Rat.add` …) are `@[irreducible]` in this
toolchain, so concrete instances of the model could not be settled by `decide`
through them.  The model therefore uses the following `mkRat`-based operations,
which the kernel evaluates; `qadd_eq` … prove them equal to the standard ones,
so universally quantified statements can be read with ordinary arithmetic. -/

/-- Addition on `ℚ` by cross-multiplication. -/
def qadd (a b : ℚ) : ℚ := mkRat (a.num * b.den + b.num * a.den) (a.den * b.den)

/-- Subtraction on `ℚ` by cross-multiplication. -/
def qsub (a b : ℚ) : ℚ := mkRat (a.num * b.den - b.num * a.den) (a.den * b.den)

/-- Multiplication on `ℚ`. -/
def qmul (a b : ℚ) : ℚ := mkRat (a.num * b.num) (a.den * b.den)

/-- Division on `ℚ` (`a / 0 = 0`, as in Lean). -/
def qdiv (a b : ℚ) : ℚ :=
  if b.num < 0 then mkRat (-(a.num * b.den)) (a.den * b.num.natAbs)
  else mkRat (a.num * b.den) (a.den * b.num.natAbs)

/-- `sum` over a list of rationals. -/
def qsum (l : List ℚ) : ℚ := l.foldl qadd 0

theorem qadd_eq (a b : ℚ) : qadd a b = a + b := by
  have ha : (a.den : ℚ) ≠ 0 := Nat.cast_ne_zero.mpr a.den_nz
  have hb : (b.den : ℚ) ≠ 0 := Nat.cast_ne_zero.mpr b.den_nz
  rw [qadd, Rat.mkRat_eq_div]
  push_cast
  conv_rhs => rw [← Rat.num_div_den a, ← Rat.num_div_den b]
  field_simp

theorem qsub_eq (a b : ℚ) : qsub a b = a - b := by
  have ha : (a.den : ℚ) ≠ 0 := Nat.cast_ne_zero.mpr a.den_nz
  have hb : (b.den : ℚ) ≠ 0 := Nat.cast_ne_zero.mpr b.den_nz
  rw [qsub, Rat.mkRat_eq_div]
  push_cast
  conv_rhs => rw [← Rat.num_div_den a, ← Rat.num_div_den b]
  field_simp
  ring

theorem qmul_eq (a b : ℚ) : qmul a b = a * b := by
  have ha : (a.den : ℚ) ≠ 0 := Nat.cast_ne_zero.mpr a.den_nz
  have hb : (b.den : ℚ) ≠ 0 := Nat.cast_ne_zero.mpr b.den_nz
  rw [qmul, Rat.mkRat_eq_div]
  push_cast
  conv_rhs => rw [← Rat.num_div_den a, ← Rat.num_div_den b]
  field_simp

theorem qdiv_eq (a b : ℚ) : qdiv a b = a / b := by
  rcases lt_trichotomy b.num 0 with h | h | h
  · have ha : (a.den : ℚ) ≠ 0 := Nat.cast_ne_zero.mpr a.den_nz
    have hb : (b.den : ℚ) ≠ 0 := Nat.cast_ne_zero.mpr b.den_nz
    have hbn : (b.num : ℚ) ≠ 0 := Int.cast_ne_zero.mpr (by omega)
    have hb0 : b ≠ 0 := fun hc => by simp [hc] at h
    rw [qdiv, if_pos h, Rat.mkRat_eq_div]
    push_cast [Int.cast_natAbs]
    rw [abs_of_neg (show ((b.num : ℚ)) < 0 by exact_mod_cast h)]
    conv_rhs => rw [← Rat.num_div_den a, ← Rat.num_div_den b]
    field_simp
  · have hb0 : b = 0 := by
      have hd := Rat.num_div_den b
      rw [h] at hd; simpa using hd.symm
    subst hb0
    simp [qdiv, Rat.mkRat_eq_div]
  · have ha : (a.den : ℚ) ≠ 0 := Nat.cast_ne_zero.mpr a.den_nz
    have hb : (b.den : ℚ) ≠ 0 := Nat.cast_ne_zero.mpr b.den_nz
    have hbn : (b.num : ℚ) ≠ 0 := Int.cast_ne_zero.mpr (by omega)
    rw [qdiv, if_neg (by omega), Rat.mkRat_eq_div]
    push_cast [Int.cast_natAbs]
    rw [abs_of_pos (show (0:ℚ) < (b.num : ℚ) by exact_mod_cast h)]
    conv_rhs => rw [← Rat.num_div_den a, ← Rat.num_div_den b]
    field_simp

theorem qsum_nil : qsum [] = 0 := rfl

/- ### String helpers (os.path fragments used by the sources) -/

/-- Python `str.lower()` (ASCII case folding suffices for all inputs in scope). -/
def strLower (s : String) : String := ⟨s.toList.map Char.toLower⟩

/-- `os.path.basename`: the component after the last `/` (paths in this model
are `/`-separated, as produced by our own `os.path.join` model below). -/
def basename (p : String) : String :=
  ⟨p.toList.foldl (fun acc c => if c = '/' then [] else acc ++ [c]) []⟩

/-- Python `str.startswith` (char-list implementation, kernel-evaluable). -/
def strStartsWith (s pre : String) : Bool := pre.toList.isPrefixOf s.toList

/-- Python `str.endswith` (char-list implementation, kernel-evaluable). -/
def strEndsWith (s suf : String) : Bool :=
  suf.toList.reverse.isPrefixOf s.toList.reverse

/-- Lexicographic-by-code-point string comparison (Python `str` ordering),
char-list implementation so the kernel evaluates it. -/
def charListLe : List Char → List Char → Bool
  | [], _ => true
  | _ :: _, [] => false
  | a :: as, b :: bs => if a = b then charListLe as bs else decide (a.val < b.val)

/-- Python `a <= b` on strings. -/
def strLe (a b : String) : Bool := charListLe a.toList b.toList

/-- `os.path.join(dir, name)` for our `/`-separated path model. -/
def pjoin (dir name : String) : String := dir ++ "/" ++ name

/-- The extension part of `os.path.splitext(name)[1]`: the suffix from the last
dot, except that leading dots (as in `.bashrc`) start no extension. -/
def splitextExt (name : String) : String :=
  let cs := name.toList
  match ((List.range cs.length).filter fun i =>
      decide (cs.get? i = some '.') && !((cs.take i).all (· = '.'))).getLast? with
  | none => ""
  | some i => ⟨cs.drop i⟩

/- ### Regex patterns (file_analyzer pattern tables)

Every pattern used by `FileAnalyzer` is either a literal (matched as a
substring, `re.search` semantics) or of the form `A.*B` (an occurrence of `A`
followed, after a gap free of newlines, by an occurrence of `B`; `.` does not
match `\n` in Python's default mode).  All call sites lower-case the text and
pass `re.IGNORECASE`, and the patterns are lower-case, so matching is performed
on the lower-cased text. -/

inductive Pat : Type where
  | lit (s : String)
  | seq (a b : String)

/-- Does `a` occur starting at offset `i` of `t`? -/
def matchesAt (a t : List Char) (i : ℕ) : Bool := a.isPrefixOf (t.drop i)

/-- `re.search` for a literal pattern: some occurrence in `t`. -/
def litSearch (a t : List Char) : Bool :=
  (List.range (t.length + 1)).any (matchesAt a t)

/-- `re.search` for `A.*B`: `A` at`i`, `B` at `j ≥ i + |A|`, and no newline in
the gap consumed by `.*`. -/
def seqSearch (a b t : List Char) : Bool :=
  (List.range (t.length + 1)).any fun i =>
    matchesAt a t i &&
      (List.range (t.length + 1)).any fun j =>
        decide (i + a.length ≤ j) &&
          ((t.drop (i + a.length)).take (j - (i + a.length))).all (· ≠ '\n') &&
          matchesAt b t j

/-- `re.search(pattern, text, re.IGNORECASE)` for the two pattern shapes in use. -/
def patSearch (p : Pat) (text : String) : Bool :=
  let t := text.toList.map Char.toLower
  match p with
  | .lit s => litSearch s.toList t
  | .seq a b => seqSearch a.toList b.toList t

/-- `FileAnalyzer._matches_patterns`. -/
def matchesPatterns (text : String) (patterns : List Pat) : Bool :=
  patterns.any fun p => patSearch p text

/-- `FileAnalyzer.CBCT_FOLDER_PATTERNS`. -/
def CBCT_FOLDER_PATTERNS : List Pat :=
  [.lit "cbct", .seq "cone" "beam", .lit "3d", .lit "dicom", .lit "ct"]

/-- `FileAnalyzer.IOS_FOLDER_PATTERNS`. -/
def IOS_FOLDER_PATTERNS : List Pat :=
  [.lit "scansioni", .lit "scan", .lit "ios", .seq "intraoral" "scan", .lit "stl"]

/-- `FileAnalyzer.UPPER_PATTERNS`. -/
def UPPER_PATTERNS : List Pat :=
  [.lit "upper", .lit "superiore", .lit "sup", .lit "mascella", .lit "mascellare",
   .lit "maxilla", .lit "maxillary", .lit "maxillari", .lit "maxillar",
   .lit "upperjaw", .seq "upper" "jaw"]

/-- `FileAnalyzer.LOWER_PATTERNS`. -/
def LOWER_PATTERNS : List Pat :=
  [.lit "lower", .lit "inferiore", .lit "inf", .lit "mandibola", .lit "mandibolar",
   .lit "mandible", .lit "mandibular", .lit "lowerjaw", .seq "lower" "jaw"]

/-- `FileAnalyzer.TELERADIO_PATTERNS`. -/
def TELERADIO_PATTERNS : List Pat :=
  [.lit "tele", .lit "laterale", .lit "lateral", .lit "cefalometria", .lit "cephalometric"]

/-- `FileAnalyzer.ORTHO_PATTERNS`. -/
def ORTHO_PATTERNS : List Pat :=
  [.lit "orto", .lit "ortho", .lit "panoramic", .lit "opt", .lit "ortopantomografia"]

/-- `FileAnalyzer._should_ignore_file`: dotfiles and a fixed system-file list. -/
def shouldIgnoreFile (filename : String) : Bool :=
  strStartsWith filename "." ||
    (strLower filename = "thumbs.db" || strLower filename = "desktop.ini" ||
      strLower filename = "icon\r")

/- ### Pixel model (PIL.Image abstraction) -/

/-- An RGB-mode image: dimensions plus a pixel map (`getpixel((x, y))`).
Channel values are the 0–255 bytes PIL delivers.  The claims in scope only
concern RGB-mode inputs, so other PIL modes are not represented. -/
structure RGBImage where
  width : ℕ
  height : ℕ
  pixel : ℕ → ℕ → ℕ × ℕ × ℕ

/-- Python `range(0, stop, step)` for `step ≥ 1`. -/
def pyRange (stop step : ℕ) : List ℕ :=
  (List.range ((stop + step - 1) / step)).map (· * step)

/-- The sampling grid of `_classify_image_by_content`: every `step_x`-th column
and `step_y`-th row, where `step = max 1 (dim / 20)`; x is the outer loop. -/
def samplePoints (img : RGBImage) : List (ℕ × ℕ) :=
  let step_x := max 1 (img.width / 20)
  let step_y := max 1 (img.height / 20)
  (pyRange img.width step_x).flatMap fun x =>
    (pyRange img.height step_y).map fun y => (x, y)

/-- All pixels of the image, used for the PIL channel histograms. -/
def allPixels (img : RGBImage) : List (ℕ × ℕ × ℕ) :=
  (List.range img.width).flatMap fun x =>
    (List.range img.height).map fun y => img.pixel x y

/-- `img.split()[c].histogram()[i]`: how many pixels have value `i` in channel
`c` (`0` = R, `1` = G, `2` = B). -/
def channelHist (img : RGBImage) (c : ℕ) (i : ℕ) : ℕ :=
  (allPixels img).countP fun px =>
    (if c = 0 then px.1 else if c = 1 then px.2.1 else px.2.2) = i

/-- `sum(abs(hist_a[i] - hist_b[i]) for i in range(256))`. -/
def histDiff (img : RGBImage) (a b : ℕ) : ℕ :=
  ((List.range 256).map fun i =>
    max (channelHist img a i) (channelHist img b i)
      - min (channelHist img a i) (channelHist img b i)).sum

/-- The averaged, pixel-count-normalized cross-channel histogram difference
computed identically in `_is_grayscale_image` and `_classify_image_by_content`:
`(|R−G| + |G−B| + |R−B|) / 3` after dividing each sum by `width*height`. -/
def avgHistDiff (img : RGBImage) : ℚ :=
  let n : ℚ := qmul (img.width : ℚ) (img.height : ℚ)
  qdiv
    (qadd (qadd (qdiv (histDiff img 0 1 : ℚ) n) (qdiv (histDiff img 1 2 : ℚ) n))
      (qdiv (histDiff img 0 2 : ℚ) n)) 3

/-- `FileAnalyzer._is_grayscale_image` on an RGB image: histogram analysis with
threshold 0.3.  A `width*height = 0` image would divide by zero, fall into the
pixel-sampling fallback, and return `True` over the empty sample. -/
def is_grayscale_image (img : RGBImage) : Bool :=
  if img.width * img.height = 0 then true
  else decide (avgHistDiff img < mkRat 3 10)

/-- Mean of a list of rationals (the lists below are nonempty whenever this is
reached, mirroring the `if not sample_points: return None` guard). -/
def qAvg (l : List ℚ) : ℚ := qdiv (qsum l) (l.length : ℚ)

/-- Population variance as computed in the source:
`sum((v - avg)^2 for v) / len`. -/
def qVar (l : List ℚ) : ℚ :=
  let m := qAvg l
  qdiv (qsum (l.map fun v => qmul (qsub v m) (qsub v m))) (l.length : ℚ)

/-- Per-pixel saturation `(max-min)/max`, `0` when `max = 0`. -/
def pxSaturation (px : ℕ × ℕ × ℕ) : ℚ :=
  let mx : ℕ := max px.1 (max px.2.1 px.2.2)
  let mn : ℕ := min px.1 (min px.2.1 px.2.2)
  if mx > 0 then qdiv ((mx - mn : ℕ) : ℚ) (mx : ℚ) else 0

/-- Per-pixel luminance `0.299 r + 0.587 g + 0.114 b`. -/
def pxBrightness (px : ℕ × ℕ × ℕ) : ℚ :=
  qadd (qadd (qmul (mkRat 299 1000) (px.1 : ℚ)) (qmul (mkRat 587 1000) (px.2.1 : ℚ)))
    (qmul (mkRat 114 1000) (px.2.2 : ℚ))

/-- `FileAnalyzer._classify_image_by_content`.

Faithfulness notes, keyed to the source:
* the empty-sample guard `if not sample_points: return None` fires exactly when
  `width = 0` or `height = 0` (one of the two grid loops is empty);
* `is_near_grayscale` reuses `avgHistDiff`; the `except` fallback to `False`
  can only trigger on a zero-pixel image, already excluded here;
* the facial-photo branch evaluates `DataType.FACIAL_PHOTO`, which does not
  exist in `models.DataType`; the `AttributeError` is swallowed by the
  function's outer `except Exception` and the call returns `None`, so taking
  that branch aborts the function before the final saturation fallback. -/
def classify_image_by_content (img : RGBImage) : Option DataType :=
  if img.width = 0 ∨ img.height = 0 then none
  else
    let pts := (samplePoints img).map fun xy => img.pixel xy.1 xy.2
    let avg_red := qAvg (pts.map fun px => (px.1 : ℚ))
    let avg_green := qAvg (pts.map fun px => (px.2.1 : ℚ))
    let avg_blue := qAvg (pts.map fun px => (px.2.2 : ℚ))
    let avg_brightness := qAvg (pts.map pxBrightness)
    let avg_saturation := qAvg (pts.map pxSaturation)
    let red_variance := qVar (pts.map fun px => (px.1 : ℚ))
    let green_variance := qVar (pts.map fun px => (px.2.1 : ℚ))
    let blue_variance := qVar (pts.map fun px => (px.2.2 : ℚ))
    let hv := avgHistDiff img
    let is_near_grayscale := hv < mkRat 3 10
    let red_dominant := avg_red > avg_green ∧ avg_red > avg_blue
    let pink_red_tones := avg_red > 150 ∧ avg_green < 120 ∧ avg_blue < 120
    let skin_tone_detected :=
      120 < avg_red ∧ avg_red < 200 ∧ 100 < avg_green ∧ avg_green < 180 ∧
        80 < avg_blue ∧ avg_blue < 160 ∧ avg_red > avg_green ∧ avg_green > avg_blue
    if is_near_grayscale ∧ hv < mkRat 1 5 then
      none
    else if avg_saturation > mkRat 3 10 ∧ ¬is_near_grayscale ∧
        (pink_red_tones ∨ red_dominant) ∧ avg_brightness > 80 ∧
        max red_variance (max green_variance blue_variance) > 1000 then
      some .INTRAORAL_PHOTO
    else if mkRat 1 5 < avg_saturation ∧ avg_saturation < mkRat 3 5 ∧ ¬is_near_grayscale ∧
        skin_tone_detected ∧ avg_brightness > 60 ∧
        max red_variance (max green_variance blue_variance) > 800 then
      -- `return DataType.FACIAL_PHOTO` raises AttributeError → caught → None
      none
    else if avg_saturation > mkRat 2 5 ∧ ¬is_near_grayscale then
      some .INTRAORAL_PHOTO
    else
      none

/-- `FileAnalyzer._analyze_image_properties` for an openable RGB image
(`none` when `Image.open` fails).  A `height = 0` image raises
`ZeroDivisionError` computing the aspect ratio, caught by the trailing
`except Exception` which returns `None`. -/
def analyze_image_properties (imgOpt : Option RGBImage) : Option DataType :=
  match imgOpt with
  | none => none
  | some img =>
    if img.height = 0 then none
    else
      let aspect : ℚ := qdiv (img.width : ℚ) (img.height : ℚ)
      let rgb_analysis := classify_image_by_content img
      let is_grayscale := is_grayscale_image img
      if is_grayscale then
        if mkRat 4 5 ≤ aspect ∧ aspect ≤ mkRat 6 5 then some .TELERADIOGRAPHY
        else if aspect > mkRat 3 2 ∨ aspect < mkRat 7 10 then some .ORTHOPANTOMOGRAPHY
        else none
      else
        match rgb_analysis with
        | some t => some t
        | none => some .INTRAORAL_PHOTO

/- ### Filesystem model -/

/-- A regular file as the analyzer can observe it.  `dicomSniff` abstracts the
external probes of `_is_dicom_file` beyond the extension check (pydicom
`dcmread(force=True)` succeeding, or libmagic reporting a DICOM MIME type);
`image` abstracts `PIL.Image.open` (`some` iff the file opens as an RGB image). -/
structure FSFile where
  name : String
  dicomSniff : Bool := false
  image : Option RGBImage := none

mutual

/-- One `os.listdir` entry: a regular file or a subdirectory with its own
listing.  The listing order is the order the OS returns, which is the
iteration order of every loop in the source.  (`EntryList` is an inlined list
so that folder traversals are structurally recursive.) -/
inductive Entry : Type where
  | file (f : FSFile)
  | dir (name : String) (entries : EntryList)

/-- A directory listing. -/
inductive EntryList : Type where
  | nil
  | cons (e : Entry) (rest : EntryList)

end

/-- Build an `EntryList` from a `List Entry` (used to write down concrete
folders). -/
def EntryList.ofList : List Entry → EntryList
  | [] => .nil
  | e :: rest => .cons e (EntryList.ofList rest)

/-- `FileAnalyzer._is_dicom_file`: extension `.dcm`/`.dicom`, else the abstract
sniffing probes. -/
def is_dicom_file (f : FSFile) : Bool :=
  let ext := strLower (splitextExt f.name)
  ext = ".dcm" || ext = ".dicom" || f.dicomSniff

/-- The loop body of `FileAnalyzer._find_special_folders`, carried over the
listing: directories named `tmp` (case-insensitively) are skipped; the first
directory matching each pattern family wins; one directory may win both.
The accumulator holds each winner's joined path together with its listing. -/
def find_special_folders_loop (folder_path : String)
    (acc : Option (String × EntryList) × Option (String × EntryList)) :
    EntryList → Option (String × EntryList) × Option (String × EntryList)
  | .nil => acc
  | .cons (.file _) rest => find_special_folders_loop folder_path acc rest
  | .cons (.dir n es) rest =>
    if strLower n = "tmp" then find_special_folders_loop folder_path acc rest
    else
      let acc1 :=
        if acc.1.isNone ∧ matchesPatterns (strLower n) CBCT_FOLDER_PATTERNS
        then (some (pjoin folder_path n, es), acc.2) else acc
      let acc2 :=
        if acc1.2.isNone ∧ matchesPatterns (strLower n) IOS_FOLDER_PATTERNS
        then (acc1.1, some (pjoin folder_path n, es)) else acc1
      find_special_folders_loop folder_path acc2 rest

/-- `FileAnalyzer._find_special_folders`. -/
def find_special_folders (folder_path : String) (entries : EntryList) :
    Option (String × EntryList) × Option (String × EntryList) :=
  find_special_folders_loop folder_path (none, none) entries

/-- The regular files of one directory listing, in listing order (the
`filenames` component `os.walk` yields for that directory). -/
def listingFiles : EntryList → List FSFile
  | .nil => []
  | .cons (.file f) rest => f :: listingFiles rest
  | .cons (.dir _ _) rest => listingFiles rest

/-- Recursive part of the `os.walk` file enumeration: all files below the
subdirectories of the current listing, depth-first in listing order.  The walk
itself skips nothing; per-file filters live in the callers. -/
def walkSubdirs (path : String) : EntryList → List (String × FSFile)
  | .nil => []
  | .cons (.file _) rest => walkSubdirs path rest
  | .cons (.dir n es) rest =>
    ((listingFiles es).map fun f => (pjoin (pjoin path n) f.name, f)) ++
      walkSubdirs (pjoin path n) es ++ walkSubdirs path rest

/-- `os.walk` file enumeration (top-down): the files of the current directory
in listing order, then each subdirectory recursively in listing order. -/
def walkDirFiles (path : String) (entries : EntryList) : List (String × FSFile) :=
  ((listingFiles entries).map fun f => (pjoin path f.name, f)) ++
    walkSubdirs path entries

/-- `FileAnalyzer._analyze_cbct_folder`: every walked, non-ignored file that
passes `_is_dicom_file` becomes a `CBCT_DICOM` record at confidence 0.9. -/
def analyze_cbct_folder (cbct_folder : String) (entries : EntryList) : List FileData :=
  (walkDirFiles cbct_folder entries).filterMap fun pf =>
    if shouldIgnoreFile pf.2.name then none
    else if is_dicom_file pf.2 then
      some { path := pf.1, data_type := some .CBCT_DICOM, confidence := mkRat 9 10,
             status := .MATCHED }
    else none

/-- The `.stl` collection step of `_analyze_ios_folder`: non-ignored regular
files of the IOS folder (non-recursive) whose lower-cased name ends in `.stl`. -/
def stlFilesOf (ios_folder : String) (entries : EntryList) : List String :=
  (listingFiles entries).filterMap fun f =>
    if shouldIgnoreFile f.name then none
    else if strEndsWith (strLower f.name) ".stl" then some (pjoin ios_folder f.name)
    else none

/-- `FileAnalyzer._analyze_ios_folder` — the upper/lower pair it returns.

* 0 files: both `none`.
* 1 file: keyword-classified at confidence 0.7; with no keyword the file comes
  back in the *first* component as an `AMBIGUOUS` record with no type.
* ≥ 2 files: first upper- and lower-keyword matches win at confidence 0.8.
  The source accumulates every other file in a local `unmatched_files` list and
  then returns only the pair, discarding that list; with exactly 2 files and no
  keyword match on either, the alphabetical fallback assigns them at
  confidence 0.3. -/
def analyze_ios_folder (ios_folder : String) (entries : EntryList) :
    Option FileData × Option FileData :=
  let stl_files := stlFilesOf ios_folder entries
  match stl_files with
  | [] => (none, none)
  | [single] =>
    let filename := strLower (basename single)
    if matchesPatterns filename UPPER_PATTERNS then
      (some { path := single, data_type := some .IOS_UPPER, confidence := mkRat 7 10,
              status := .MATCHED }, none)
    else if matchesPatterns filename LOWER_PATTERNS then
      (none, some { path := single, data_type := some .IOS_LOWER, confidence := mkRat 7 10,
                    status := .MATCHED })
    else
      (some { path := single, data_type := none, confidence := 0,
              status := .AMBIGUOUS }, none)
  | _ :: _ :: _ =>
    let pair := stl_files.foldl
      (fun (acc : Option FileData × Option FileData) file_path =>
        let filename := strLower (basename file_path)
        if matchesPatterns filename UPPER_PATTERNS then
          match acc.1 with
          | none => (some { path := file_path, data_type := some .IOS_UPPER,
                            confidence := mkRat 4 5, status := .MATCHED }, acc.2)
          | some _ => acc   -- later upper match: pushed on the discarded local list
        else if matchesPatterns filename LOWER_PATTERNS then
          match acc.2 with
          | none => (acc.1, some { path := file_path, data_type := some .IOS_LOWER,
                                   confidence := mkRat 4 5, status := .MATCHED })
          | some _ => acc   -- later lower match: pushed on the discarded local list
        else acc            -- no keyword: pushed on the discarded local list
      ) (none, none)
    match pair with
    | (none, none) =>
      -- alphabetical fallback, only when exactly two files exist
      match stl_files with
      | [a, b] =>
        let fst := if strLe a b then a else b
        let snd := if strLe a b then b else a
        (some { path := fst, data_type := some .IOS_UPPER, confidence := mkRat 3 10,
                status := .MATCHED },
         some { path := snd, data_type := some .IOS_LOWER, confidence := mkRat 3 10,
                status := .MATCHED })
      | _ => (none, none)
    | p => p

/-- `FileAnalyzer._get_files_in_folder`: listing-order traversal of a folder.
Ignored names are skipped (files *and* directories); a directory whose joined
path is in `exclude_folders` is skipped; `tmp` directories are skipped; other
directories are recursed into with *no* exclusions, as in the source
(`self._get_files_in_folder(item_path)`). -/
def get_files_in_folder (path : String) (entries : EntryList)
    (exclude_folders : List String) : List (String × FSFile) :=
  match entries with
  | .nil => []
  | .cons (.file f) rest =>
    (if shouldIgnoreFile f.name then [] else [(pjoin path f.name, f)]) ++
      get_files_in_folder path rest exclude_folders
  | .cons (.dir n es) rest =>
    (if shouldIgnoreFile n then []
     else if (pjoin path n) ∈ exclude_folders then []
     else if strLower n = "tmp" then []
     else get_files_in_folder (pjoin path n) es []) ++
      get_files_in_folder path rest exclude_folders

/-- `FileAnalyzer._analyze_single_file` on a main-folder file. -/
def analyze_single_file (file_path : String) (f : FSFile) : FileData :=
  let filename := strLower (basename file_path)
  let extension := strLower (splitextExt filename)
  if extension ∈ [".jpg", ".jpeg", ".png", ".bmp", ".tiff", ".tif"] then
    if matchesPatterns filename TELERADIO_PATTERNS then
      { path := file_path, data_type := some .TELERADIOGRAPHY, confidence := mkRat 7 10,
        status := .MATCHED }
    else if matchesPatterns filename ORTHO_PATTERNS then
      { path := file_path, data_type := some .ORTHOPANTOMOGRAPHY, confidence := mkRat 7 10,
        status := .MATCHED }
    else
      match analyze_image_properties f.image with
      | some image_type =>
        { path := file_path, data_type := some image_type,
          confidence :=
            if image_type = .TELERADIOGRAPHY ∨ image_type = .ORTHOPANTOMOGRAPHY
            then mkRat 3 5 else mkRat 4 5,
          status := .MATCHED }
      | none =>
        { path := file_path, data_type := some .INTRAORAL_PHOTO, confidence := mkRat 1 2,
          status := .MATCHED }
  else
    { path := file_path, data_type := none, confidence := 0, status := .UNMATCHED }

/-- One step of `FileAnalyzer._categorize_main_folder_files`: route one
analyzed file into the aggregate. -/
def categorizeStep (pd : PatientData) (file_data : FileData) : PatientData :=
  if file_data.data_type = some .TELERADIOGRAPHY then
    match pd.teleradiography with
    | none => { pd with teleradiography := some file_data }
    | some _ =>
      { pd with unmatched_files :=
          pd.unmatched_files ++ [{ file_data with status := .AMBIGUOUS }] }
  else if file_data.data_type = some .ORTHOPANTOMOGRAPHY then
    match pd.orthopantomography with
    | none => { pd with orthopantomography := some file_data }
    | some _ =>
      { pd with unmatched_files :=
          pd.unmatched_files ++ [{ file_data with status := .AMBIGUOUS }] }
  else if file_data.data_type = some .INTRAORAL_PHOTO then
    { pd with intraoral_photos := pd.intraoral_photos ++ [file_data] }
  else
    { pd with unmatched_files := pd.unmatched_files ++ [file_data] }

/-- `FileAnalyzer._categorize_main_folder_files`. -/
def categorize_main_folder_files (files : List (String × FSFile))
    (pd : PatientData) : PatientData :=
  files.foldl (fun acc pf => categorizeStep acc (analyze_single_file pf.1 pf.2)) pd

/-- A patient folder as presented to `analyze_patient_folder`: its (normalized,
absolute) path, whether `os.path.exists` holds, and its listing. -/
structure PatientFolderFS where
  folder_path : String
  exists_fs : Bool := true
  entries : EntryList := .nil

/-- `FileAnalyzer.analyze_patient_folder` with `use_cache=False` — the fresh
analysis pipeline.  (`_run_post_processing` only writes the NIfTI/zip artifact
fields, which are outside the modelled state.) -/
def analyze_patient_folder_fresh (fs : PatientFolderFS) : PatientData :=
  let patient_id := basename fs.folder_path
  let pd0 : PatientData := { patient_id := patient_id, folder_path := fs.folder_path }
  if ¬fs.exists_fs then
    { pd0 with validation_errors :=
        ["Folder does not exist: " ++ fs.folder_path] }
  else
    let special := find_special_folders fs.folder_path fs.entries
    let pd1 := { pd0 with
      cbct_folder := special.1.map Prod.fst
      ios_folder := special.2.map Prod.fst }
    let pd2 :=
      match special.1 with
      | none => pd1
      | some c => { pd1 with cbct_files := analyze_cbct_folder c.1 c.2 }
    let pd3 :=
      match special.2 with
      | none => pd2
      | some io2 =>
        let ul := analyze_ios_folder io2.1 io2.2
        { pd2 with ios_upper := ul.1, ios_lower := ul.2 }
    let main_files := get_files_in_folder fs.folder_path fs.entries
      ((optSlot' special.1) ++ (optSlot' special.2))
    categorize_main_folder_files main_files pd3
where
  /-- the non-`None` excluded folder paths. -/
  optSlot' : Option (String × EntryList) → List String
  | none => []
  | some c => [c.1]

/- ### Python dict model -/

/-- Python `d[k] = v`: update the value in place if the key exists (keeping its
position), else append.  Iteration order of the association list is CPython
dict insertion order. -/
def dictInsert {α : Type} (k : String) (v : α) : List (String × α) → List (String × α)
  | [] => [(k, v)]
  | (k', v') :: rest =>
    if k' = k then (k', v) :: rest else (k', v') :: dictInsert k v rest

/-- Python `d.get(k)` / `k in d`. -/
def dictLookup {α : Type} (k : String) : List (String × α) → Option α
  | [] => none
  | (k', v) :: rest => if k' = k then some v else dictLookup k rest

/-- Python `del d[k]`. -/
def dictRemove {α : Type} (k : String) (d : List (String × α)) : List (String × α) :=
  d.filter fun kv => kv.1 ≠ k

/-- Python `dict.update`: insert every pair of `new` into `old`. -/
def dictUpdate {α : Type} (old new : List (String × α)) : List (String × α) :=
  new.foldl (fun acc kv => dictInsert kv.1 kv.2 acc) old

/- ### match_cache.py — fingerprint -/

/-- The metadata `get_folder_hash` feeds to MD5: the folder's own
mtime and size, and the `os.walk` output as (directory-relative-path,
[(filename, mtime, size)]) with per-file `stat` failures already dropped
(the source `continue`s over them). -/
inductive StatResult : Type where
  | ok (folderMtime : ℚ) (folderSize : ℕ)
      (walk : List (String × List (String × ℚ × ℕ)))
  | err
  deriving DecidableEq

/-- An MD5 digest, modelled injectively by the data determining the hashed
string: either the folder-contents fingerprint string or the
`time.time()` fallback string.  Distinct inputs are assumed to give distinct
digests (MD5 collisions are outside every claim's scope). -/
inductive Digest : Type where
  | contents (folderMtime : ℚ) (folderSize : ℕ) (files : List (String × ℚ × ℕ))
  | timeFallback (t : ℚ)
  deriving DecidableEq

/-- The sidecar cache file name, `MatchCache.get_patient_cache_file`'s basename. -/
def cacheFileName : String := ".tf4m_cache.json"

/-- Insertion sort by `≤` on the first component — `sorted(filenames)`. -/
def sortByName (l : List (String × ℚ × ℕ)) : List (String × ℚ × ℕ) :=
  let rec ins (x : String × ℚ × ℕ) : List (String × ℚ × ℕ) → List (String × ℚ × ℕ)
    | [] => [x]
    | y :: ys => if strLe x.1 y.1 then x :: y :: ys else y :: ins x ys
  l.foldr ins []

/-- `os.path.relpath(join(root, name), folder)` in the walk: `root` is already
folder-relative here, with `"."` for the top level. -/
def relJoin (root name : String) : String :=
  if root = "." then name else root ++ "/" ++ name

/-- `MatchCache.get_folder_hash`: hash the folder stat plus, for every walked
file except the cache sidecar, its relative path, mtime and size, sorted by
filename within each directory.  On an `OSError`/`IOError` reading the folder
the digest of the current `time.time()` string is returned instead. -/
def get_folder_hash (now : ℚ) : StatResult → Digest
  | .ok m s walk =>
    .contents m s <|
      walk.flatMap fun rootFiles =>
        ((sortByName rootFiles.2).filter fun f => f.1 ≠ cacheFileName).map
          fun f => (relJoin rootFiles.1 f.1, f.2.1, f.2.2)
  | .err => .timeFallback now

/- ### match_cache.py — CacheEntry and serialization -/

/-- The per-file payload stored in `CacheEntry.matched_files`.  The `Option`s
model `.get(..., default)` lookups in `_apply_cached_matches`
(`confidence` defaults to 0.8, `status` to `"matched"`, `metadata` to `{}`);
`data_type` is accessed with `[]` and is always present in entries the
application writes. -/
structure FileInfo where
  data_type : String
  confidence : Option ℚ := none
  status : Option String := none
  metadata : Option (List (String × String)) := none
  deriving DecidableEq, Repr

/-- `match_cache.CacheEntry` (upload-status fields carry their defaults; no
claim reads them). -/
structure CacheEntry where
  patient_id : String
  folder_path : String
  folder_hash : Digest
  timestamp : ℚ
  file_count : ℕ
  matched_files : List (String × FileInfo) := []
  unmatched_files : List String := []
  manual_assignments : List (String × String) := []
  manually_complete : Bool := false
  manual_completion_note : String := ""
  upload_status : String := "not_uploaded"
  remote_patient_id : Option Int := none
  last_upload_attempt : Option ℚ := none
  upload_error_message : String := ""
  uploaded_file_hashes : List (String × String) := []
  version : String := "1.1"
  deriving DecidableEq

/-- `CacheEntry.is_valid`: stored fingerprint equals the current one, and the
age is under the ceiling (30 days in seconds by default). -/
def CacheEntry.is_valid (e : CacheEntry) (current_hash : Digest) (now : ℚ)
    (max_age_days : ℚ := 30) : Bool :=
  if e.folder_hash ≠ current_hash then false
  else decide (qsub now e.timestamp < qmul (qmul (qmul max_age_days 24) 60) 60)

/-- The `file_info` dict `cache_matches` writes for one matched file. -/
def mkFileInfo (fd : FileData) (dt : DataType) : FileInfo :=
  { data_type := dt.value, confidence := some fd.confidence,
    status := some fd.status.value, metadata := some fd.metadata }

/-- The serialization loop of `MatchCache.cache_matches`: one pass over
`get_all_files`, building the `matched_files` dict (files with status
`MATCHED`/`MANUAL` *and* a data type) and the `manual_assignments` dict
(status `MANUAL`). -/
def mkMatchedAndManual (all_files : List FileData) :
    List (String × FileInfo) × List (String × String) :=
  all_files.foldl
    (fun acc fd =>
      match fd.data_type with
      | some dt =>
        if fd.status = .MATCHED ∨ fd.status = .MANUAL then
          (dictInsert fd.path (mkFileInfo fd dt) acc.1,
           if fd.status = .MANUAL then dictInsert fd.path dt.value acc.2 else acc.2)
        else acc
      | none => acc)
    ([], [])

/-- The `CacheEntry` that `MatchCache.cache_matches` constructs for a patient
at wall-clock `now` over folder metadata `sr`. -/
def mkCacheEntry (now : ℚ) (sr : StatResult) (pd : PatientData) : CacheEntry :=
  let all_files := pd.get_all_files
  let mm := mkMatchedAndManual all_files
  { patient_id := pd.patient_id
    folder_path := pd.folder_path
    folder_hash := get_folder_hash now sr
    timestamp := now
    file_count := all_files.length
    matched_files := mm.1
    unmatched_files := pd.unmatched_files.map (·.path)
    manual_assignments := mm.2
    manually_complete := pd.manually_complete
    manual_completion_note := pd.manual_completion_note }

/-- `MatchCache.cache_matches` in distributed mode, acting on the sidecar file
content (`load_patient_cache` result → updated dict that gets saved). -/
def cache_matches_core (now : ℚ) (sr : StatResult) (pd : PatientData)
    (content : List (String × CacheEntry)) : List (String × CacheEntry) :=
  dictInsert pd.folder_path (mkCacheEntry now sr pd) content

/- ### match_cache.py — applying cached matches

`_apply_cached_matches` mutates `FileData` objects that are simultaneously
referenced from `file_lookup` and from the lists/slots they have been routed
into.  To reproduce that aliasing the model routes *paths* and keeps the single
mutable object per path in a store; the routed structures are resolved against
the final store at the end, exactly as a CPython reader would observe. -/

/-- Intermediate state of `_apply_cached_matches`: the object store
(`file_lookup`, whose objects are mutated in place) and the routed structure
holding references (paths) into it. -/
structure ApplyState where
  store : List (String × FileData)
  cbct : List String := []
  iosU : Option String := none
  iosL : Option String := none
  photos : List String := []
  tele : Option String := none
  ortho : Option String := none
  unmatched : List String := []

/-- `MatchCache._assign_file_to_patient_structure`, routing a reference by the
file's (just restored) data type; unknown types — in particular `EXCLUDE` —
fall into the `else` branch and go to `unmatched_files`. -/
def assignToStructure (st : ApplyState) (p : String) (dt : Option DataType) : ApplyState :=
  match dt with
  | some .CBCT_DICOM => { st with cbct := st.cbct ++ [p] }
  | some .IOS_UPPER => { st with iosU := some p }
  | some .IOS_LOWER => { st with iosL := some p }
  | some .INTRAORAL_PHOTO => { st with photos := st.photos ++ [p] }
  | some .TELERADIOGRAPHY => { st with tele := some p }
  | some .ORTHOPANTOMOGRAPHY => { st with ortho := some p }
  | _ => { st with unmatched := st.unmatched ++ [p] }

/-- One iteration of the `entry.matched_files` loop of `_apply_cached_matches`.
Mutation points follow the source line by line: `DataType(...)` raising leaves
the object untouched; `MatchStatus(...)` raising happens *after* the data-type
and confidence writes; both `ValueError`s route the object to unmatched. -/
def applyMatchedStep (st : ApplyState) (pi2 : String × FileInfo) : ApplyState :=
  match dictLookup pi2.1 st.store with
  | none => st
  | some fd =>
    match DataType.fromValue pi2.2.data_type with
    | none => { st with unmatched := st.unmatched ++ [pi2.1] }
    | some dt =>
      let fd1 : FileData :=
        { fd with data_type := some dt, confidence := pi2.2.confidence.getD (mkRat 4 5) }
      match MatchStatus.fromValue (pi2.2.status.getD "matched") with
      | none =>
        { st with store := dictInsert pi2.1 fd1 st.store,
                  unmatched := st.unmatched ++ [pi2.1] }
      | some ms =>
        let fd2 : FileData :=
          { fd1 with status := ms,
                     metadata := dictUpdate fd1.metadata (pi2.2.metadata.getD []) }
        assignToStructure { st with store := dictInsert pi2.1 fd2 st.store }
          pi2.1 (some dt)

/-- One iteration of the `entry.unmatched_files` loop: reset the object and
route it to unmatched (skipped when the path no longer exists). -/
def applyUnmatchedStep (st : ApplyState) (p : String) : ApplyState :=
  match dictLookup p st.store with
  | none => st
  | some fd =>
    { st with
      store := dictInsert p
        { fd with status := .UNMATCHED, data_type := none, confidence := 0 } st.store,
      unmatched := st.unmatched ++ [p] }

/-- One iteration of the new-files loop: a walked path in neither cached list
is reset and routed to unmatched. -/
def applyNewStep (cached : List String) (st : ApplyState) (p : String) : ApplyState :=
  if p ∈ cached then st
  else
    match dictLookup p st.store with
    | none => st
    | some fd =>
      { st with
        store := dictInsert p
          { fd with status := .UNMATCHED, data_type := none, confidence := 0 } st.store,
        unmatched := st.unmatched ++ [p] }

/-- Resolve a routed reference list against the final store. -/
def resolveRefs (store : List (String × FileData)) (ps : List String) : List FileData :=
  ps.filterMap fun p => dictLookup p store

/-- Resolve a routed slot reference against the final store. -/
def resolveRef (store : List (String × FileData)) (p : Option String) : Option FileData :=
  p.bind fun q => dictLookup q store

/-- `MatchCache._apply_cached_matches`: reset the structure, replay the cached
matched map, then the cached unmatched list, then sweep uncached walked files,
and restore the manual-completion flags. -/
def apply_cached_matches (pd : PatientData) (entry : CacheEntry) : PatientData :=
  let all_files := pd.get_all_files
  let store0 := all_files.foldl (fun d fd => dictInsert fd.path fd d) []
  let keys0 := store0.map (·.1)
  let st0 : ApplyState := { store := store0 }
  let st1 := entry.matched_files.foldl applyMatchedStep st0
  let st2 := entry.unmatched_files.foldl applyUnmatchedStep st1
  let cached := (entry.matched_files.map (·.1)) ++ entry.unmatched_files
  let st3 := keys0.foldl (applyNewStep cached) st2
  { pd with
    cbct_files := resolveRefs st3.store st3.cbct
    ios_upper := resolveRef st3.store st3.iosU
    ios_lower := resolveRef st3.store st3.iosL
    intraoral_photos := resolveRefs st3.store st3.photos
    teleradiography := resolveRef st3.store st3.tele
    orthopantomography := resolveRef st3.store st3.ortho
    unmatched_files := resolveRefs st3.store st3.unmatched
    manually_complete := entry.manually_complete
    manual_completion_note := entry.manual_completion_note }

/- ### match_cache.py — lookup paths -/

/-- `MatchCache.get_cache_key`: `normpath(abspath(path))`.  Paths in this model
are already normalized and absolute, so the key is the path itself. -/
def get_cache_key (folder_path : String) : String := folder_path

/-- `MatchCache.get_cached_matches` after the per-mode load step: look the key
up, validate the fingerprint and age, delete an invalid entry (the updated
content is what gets saved back), and deserialize a valid one by re-running the
fresh analysis and applying the cached matches onto it.  Returns the result of
the call together with the content as left on disk. -/
def get_cached_matches_core (now : ℚ) (sr : StatResult) (fs : PatientFolderFS)
    (content : List (String × CacheEntry)) :
    Option PatientData × List (String × CacheEntry) :=
  let cache_key := get_cache_key fs.folder_path
  match dictLookup cache_key content with
  | none => (none, content)
  | some entry =>
    let current_hash := get_folder_hash now sr
    if ¬ entry.is_valid current_hash now then
      (none, dictRemove cache_key content)
    else
      (some (apply_cached_matches (analyze_patient_folder_fresh fs) entry), content)

/-- `FileAnalyzer.analyze_patient_folder` with `use_cache=True`: serve from the
cache when a valid entry exists, otherwise analyze fresh and cache the result.
Returns the `PatientData` and the sidecar content after the call. -/
def analyze_patient_folder_cached (now : ℚ) (sr : StatResult)
    (fs : PatientFolderFS) (content : List (String × CacheEntry)) :
    PatientData × List (String × CacheEntry) :=
  match get_cached_matches_core now sr fs content with
  | (some cached_data, c1) => (cached_data, c1)
  | (none, c1) =>
    let pd := analyze_patient_folder_fresh fs
    (pd, cache_matches_core now sr pd c1)

/- ### match_cache.py — loading the sidecar / centralized store (C9 model) -/

/-- A raw cache-entry object as found in the JSON file: the set of keys the
object carries, and the `CacheEntry` its values would populate (absent keys
populate their dataclass defaults; Python dataclasses do not type-check
constructor values, so only key shape decides whether construction raises). -/
structure RawEntry where
  present : List String
  value : CacheEntry

/-- The state of a cache file on disk.  `unreadable` is an `IOError` opening or
reading it, `notJson` a `json.JSONDecodeError`, `jsonNotDict` a decoded
top-level value with no `.items()` (raises `AttributeError`), `jsonDict` a
decoded top-level object. -/
inductive RawFile : Type where
  | unreadable
  | notJson
  | jsonNotDict
  | jsonDict (entries : List (String × RawEntry))

/-- The constructor-required `CacheEntry` fields (no dataclass default). -/
def requiredCacheFields : List String :=
  ["patient_id", "folder_path", "folder_hash", "timestamp", "file_count"]

/-- All `CacheEntry` dataclass field names. -/
def knownCacheFields : List String :=
  requiredCacheFields ++
    ["matched_files", "unmatched_files", "manual_assignments", "manually_complete",
     "manual_completion_note", "upload_status", "remote_patient_id",
     "last_upload_attempt", "upload_error_message", "uploaded_file_hashes",
     "version"]

/-- `CacheEntry(**entry_data)`: raises `TypeError` (modelled as `none`) iff an
unexpected key is present or a required key is missing. -/
def cacheEntryCtor (r : RawEntry) : Option CacheEntry :=
  if (r.present.all fun k => k ∈ knownCacheFields) ∧
      (requiredCacheFields.all fun k => k ∈ r.present) then
    some r.value
  else none

/-- `CacheEntry.from_dict`: backfill the v1.0→v1.1 keys with their defaults,
then construct.  The backfilled keys are all known and none is required, so
construction succeeds exactly when `cacheEntryCtor` does; the backfilled values
equal the dataclass defaults already reflected in `value`. -/
def cacheEntryFromDict (r : RawEntry) : Option CacheEntry :=
  cacheEntryCtor
    { r with present := r.present ++
        (["manually_complete", "manual_completion_note", "upload_status",
          "remote_patient_id", "last_upload_attempt", "upload_error_message",
          "uploaded_file_hashes"].filter fun k => k ∉ r.present) }

/-- `MatchCache.load_patient_cache` (distributed mode).  A missing file, an
`IOError` and a `JSONDecodeError` are caught and yield `{}`; but the
`CacheEntry(**entry_data)` conversion loop sits in the same `try` whose
`except` clause only names `(IOError, json.JSONDecodeError)`, so a `TypeError`
from an entry that does not fit the constructor — and the `AttributeError` from
a non-dict top level — propagate (`Except.error`). -/
def load_patient_cache (raw : Option RawFile) :
    Except Unit (List (String × CacheEntry)) :=
  match raw with
  | none => .ok []
  | some .unreadable => .ok []
  | some .notJson => .ok []
  | some .jsonNotDict => .error ()
  | some (.jsonDict entries) =>
    entries.foldlM
      (fun acc ke =>
        match cacheEntryCtor ke.2 with
        | some e => .ok (acc ++ [(ke.1, e)])
        | none => .error ())
      []

/-- `MatchCache.load_cache` (centralized mode): the whole load is wrapped in
`except Exception`, and each entry conversion is additionally wrapped in its
own `except Exception` that skips just that entry, so nothing propagates. -/
def load_cache (raw : Option RawFile) : List (String × CacheEntry) :=
  match raw with
  | none => []
  | some .unreadable => []
  | some .notJson => []
  | some .jsonNotDict => []
  | some (.jsonDict entries) =>
    entries.filterMap fun ke => (cacheEntryFromDict ke.2).map fun e => (ke.1, e)

/-- `MatchCache.get_cached_matches` in distributed mode, from the raw sidecar
file: load (possibly raising), then the shared lookup/validate/apply logic. -/
def get_cached_matches_dist (now : ℚ) (sr : StatResult) (fs : PatientFolderFS)
    (raw : Option RawFile) :
    Except Unit (Option PatientData × List (String × CacheEntry)) := do
  let content ← load_patient_cache raw
  pure (get_cached_matches_core now sr fs content)

/-- `MatchCache.get_cached_matches` in centralized mode: `self.cache_data` was
populated by `load_cache`, which never raises. -/
def get_cached_matches_cent (now : ℚ) (sr : StatResult) (fs : PatientFolderFS)
    (raw : Option RawFile) :
    Option PatientData × List (String × CacheEntry) :=
  get_cached_matches_core now sr fs (load_cache raw)

/- ### project_manager.py — manual reassignment -/

/-- `models.ProjectData` (the fields the reassignment path reads). -/
structure ProjectDataM where
  root_path : String
  patients : List PatientData
  deriving DecidableEq

/-- The file-search step of `update_patient_file_assignment`: first scan
`unmatched_files` by path, then `get_all_files()`. -/
def find_file (patient : PatientData) (file_path : String) : Option FileData :=
  match patient.unmatched_files.find? fun f => f.path = file_path with
  | some fd => some fd
  | none => patient.get_all_files.find? fun f => f.path = file_path

/-- `ProjectManager._remove_file_from_patient`: drop the record (by dataclass
equality, first occurrence) from every list and clear every slot holding it. -/
def remove_file_from_patient (patient : PatientData) (file_data : FileData) :
    PatientData :=
  { patient with
    unmatched_files := patient.unmatched_files.erase file_data
    cbct_files := patient.cbct_files.erase file_data
    intraoral_photos := patient.intraoral_photos.erase file_data
    ios_upper := if patient.ios_upper = some file_data then none else patient.ios_upper
    ios_lower := if patient.ios_lower = some file_data then none else patient.ios_lower
    teleradiography :=
      if patient.teleradiography = some file_data then none else patient.teleradiography
    orthopantomography :=
      if patient.orthopantomography = some file_data then none
      else patient.orthopantomography }

/-- `ProjectManager._add_file_to_patient`: route by data type; `EXCLUDE`
dispatches on the (lower-cased) path's extension; the four singleton slots
displace an existing occupant into `unmatched_files` before being overwritten. -/
def add_file_to_patient (patient : PatientData) (file_data : FileData) : PatientData :=
  match file_data.data_type with
  | some .EXCLUDE =>
    let lp := strLower file_data.path
    if strEndsWith lp ".dcm" ∨ strEndsWith lp ".dicom" then
      { patient with cbct_files := patient.cbct_files ++ [file_data] }
    else if strEndsWith lp ".stl" then
      { patient with unmatched_files := patient.unmatched_files ++ [file_data] }
    else if strEndsWith lp ".jpg" ∨ strEndsWith lp ".jpeg" ∨ strEndsWith lp ".png" ∨
        strEndsWith lp ".bmp" then
      { patient with intraoral_photos := patient.intraoral_photos ++ [file_data] }
    else
      { patient with unmatched_files := patient.unmatched_files ++ [file_data] }
  | some .CBCT_DICOM =>
    { patient with cbct_files := patient.cbct_files ++ [file_data] }
  | some .IOS_UPPER =>
    { patient with
      unmatched_files := patient.unmatched_files ++ optSlot patient.ios_upper
      ios_upper := some file_data }
  | some .IOS_LOWER =>
    { patient with
      unmatched_files := patient.unmatched_files ++ optSlot patient.ios_lower
      ios_lower := some file_data }
  | some .INTRAORAL_PHOTO =>
    { patient with intraoral_photos := patient.intraoral_photos ++ [file_data] }
  | some .TELERADIOGRAPHY =>
    { patient with
      unmatched_files := patient.unmatched_files ++ optSlot patient.teleradiography
      teleradiography := some file_data }
  | some .ORTHOPANTOMOGRAPHY =>
    { patient with
      unmatched_files := patient.unmatched_files ++ optSlot patient.orthopantomography
      orthopantomography := some file_data }
  | none =>
    { patient with unmatched_files := patient.unmatched_files ++ [file_data] }

/-- Replace the first patient with the given id (the object the source mutates
in place). -/
def replacePatient (pid : String) (pt : PatientData) :
    List PatientData → List PatientData
  | [] => []
  | p :: ps =>
    if p.patient_id = pid then pt :: ps else p :: replacePatient pid pt ps

/-- `ProjectManager.update_patient_file_assignment`.  `fileExists` models
`os.path.exists`.  Returns the success flag and the project state after the
call. -/
def update_patient_file_assignment (fileExists : String → Bool)
    (project_data : Option ProjectDataM) (patient_id file_path : String)
    (data_type : DataType) : Bool × Option ProjectDataM :=
  match project_data with
  | none => (false, none)
  | some proj =>
    if ¬ fileExists file_path then (false, some proj)
    else
      match proj.patients.find? fun p => p.patient_id = patient_id with
      | none => (false, some proj)
      | some patient =>
        match find_file patient file_path with
        | none => (false, some proj)
        | some file_data =>
          let pt1 := remove_file_from_patient patient file_data
          let fd1 : FileData :=
            { file_data with data_type := some data_type, confidence := 1,
                             status := .MANUAL }
          let pt2 := add_file_to_patient pt1 fd1
          (true, some { proj with patients := replacePatient patient_id pt2 proj.patients })

/- ### Concrete scenarios used by counterexamples and witnesses -/

/-- A patient folder whose IOS subfolder holds three `.stl` files with neither
upper nor lower keywords in their names. -/
def fsIos3 : PatientFolderFS :=
  ⟨"/r/pB", true, .ofList [.dir "scans" (.ofList
    [.file ⟨"a.stl", false, none⟩, .file ⟨"b.stl", false, none⟩,
     .file ⟨"c.stl", false, none⟩])]⟩

/-- A patient folder whose IOS subfolder holds exactly one keyword-free
`.stl` file. -/
def fsIos1 : PatientFolderFS :=
  ⟨"/r/p1", true, .ofList [.dir "scan" (.ofList [.file ⟨"model.stl", false, none⟩])]⟩

/-- Folder metadata for `fsIos1` (used for fingerprints). -/
def srIos1 : StatResult := .ok 1 4096 [(".", []), ("scan", [("model.stl", 1, 5)])]

/-- A patient folder with two orthopantomography-keyword images (the
displacement example of the specification's property 7). -/
def fsOrtho : PatientFolderFS :=
  ⟨"/r/pA", true, .ofList [.file ⟨"panoramic_v1.jpg", false, none⟩,
    .file ⟨"panoramic_v2.jpg", false, none⟩]⟩

/-- Folder metadata for `fsOrtho`. -/
def srOrtho : StatResult :=
  .ok 1 4096 [(".", [("panoramic_v1.jpg", 1, 10), ("panoramic_v2.jpg", 1, 11)])]

/-- The fresh classification of `fsOrtho`: `panoramic_v1.jpg` wins the
orthopantomography slot, `panoramic_v2.jpg` is AMBIGUOUS in unmatched. -/
def orthoP0 : PatientData := analyze_patient_folder_fresh fsOrtho

/-- The manual reassignment of `panoramic_v2.jpg` into the orthopantomography
slot (displacing `panoramic_v1.jpg` to unmatched), as performed by
`update_patient_file_assignment` on the one-patient project. -/
def orthoUpd : Bool × Option ProjectDataM :=
  update_patient_file_assignment (fun _ => true)
    (some ⟨"/r", [orthoP0]⟩) "pA" "/r/pA/panoramic_v2.jpg" .ORTHOPANTOMOGRAPHY

/-- The patient state after the manual reassignment. -/
def orthoP1 : PatientData :=
  ((orthoUpd.2.getD ⟨"/r", [orthoP0]⟩).patients.headD orthoP0)

/-- The result of a classify-with-cache call on the unchanged folder right
after the manual reassignment has been saved to the sidecar cache. -/
def orthoReload : PatientData × List (String × CacheEntry) :=
  analyze_patient_folder_cached 0 srOrtho fsOrtho (cache_matches_core 0 srOrtho orthoP1 [])

/-- A 4×3 RGB image whose pixels are all `(0,0,0)`: the three channel
histograms are identical (cross-channel difference 0) and the aspect ratio
4/3 lies in the gap between the teleradiography band [0.8, 1.2] and the
orthopantomography band (>1.5 or <0.7). -/
def imgGray43 : RGBImage := ⟨4, 3, fun _ _ => (0, 0, 0)⟩

/- ### C1 -/

/-- C1.  The claim states that after classification every non-ignored `.stl`
file of the discovered IOS folder appears in exactly one of the aggregate's
slots, never in zero of them.  The code violates this: for an IOS folder with
three keyword-free `.stl` files, `_analyze_ios_folder` accumulates all three in
a local `unmatched_files` list and then returns only the `(upper, lower)` pair
— the list is discarded (its own comments say "mark others as ambiguous", and
the spec says "not silently dropped", but the files vanish).  Here the IOS
folder is discovered, holds three non-ignored `.stl` files, and the resulting
aggregate contains no file at all (`get_all_files = []`). -/
theorem C1_ios_stl_files_dropped :
    (analyze_patient_folder_fresh fsIos3).ios_folder = some "/r/pB/scans" ∧
    stlFilesOf "/r/pB/scans" (.ofList
      [.file ⟨"a.stl", false, none⟩, .file ⟨"b.stl", false, none⟩,
       .file ⟨"c.stl", false, none⟩]) =
      ["/r/pB/scans/a.stl", "/r/pB/scans/b.stl", "/r/pB/scans/c.stl"] ∧
    (analyze_patient_folder_fresh fsIos3).get_all_files = [] := by
  refine ⟨by decide, by decide, by decide⟩

/- ### C3 -/

/-- C3.  The claim states that after a manual reassignment (status MANUAL) and
a cache save, every subsequent classify-with-cache call on the unchanged folder
returns the file with the manually assigned type and MANUAL status.  The code
violates this: in the displacement scenario (the spec's own property-7
example), `cache_matches` stores the displaced MATCHED occupant in *both* the
matched map and the unmatched path list; on reload `_apply_cached_matches`
first restores the manual file into the slot, then the displaced file's matched
entry overwrites the slot, and the unmatched pass finally wipes that same
(aliased) object to UNMATCHED.  The manually assigned file disappears from the
aggregate entirely. -/
theorem C3_manual_override_lost_on_reload :
    -- the reassignment succeeded and the in-memory state is correct:
    orthoUpd.1 = true ∧
    orthoP1.orthopantomography =
      some ⟨"/r/pA/panoramic_v2.jpg", some .ORTHOPANTOMOGRAPHY, 1, .MANUAL, []⟩ ∧
    -- the cache entry records the manual assignment, but double-lists the
    -- displaced occupant:
    dictLookup "/r/pA/panoramic_v2.jpg"
        (mkCacheEntry 0 srOrtho orthoP1).matched_files =
      some { data_type := "orthopantomography", confidence := some 1,
             status := some "manual", metadata := some [] } ∧
    (mkCacheEntry 0 srOrtho orthoP1).unmatched_files = ["/r/pA/panoramic_v1.jpg"] ∧
    dictLookup "/r/pA/panoramic_v1.jpg"
        (mkCacheEntry 0 srOrtho orthoP1).matched_files ≠ none ∧
    -- the reload returns the displaced file, wiped, in the slot — and the
    -- manually assigned file is gone from the whole aggregate:
    (orthoReload.1.get_all_files.filter
      fun fd => fd.path = "/r/pA/panoramic_v2.jpg") = [] ∧
    orthoReload.1.orthopantomography =
      some ⟨"/r/pA/panoramic_v1.jpg", none, 0, .UNMATCHED, []⟩ := by
  refine ⟨by decide, by decide, by decide, by decide, by decide, by decide, by decide⟩

/- ### C2 — counterexample -/

/-- C2 counterexample.  The single keyword-free `.stl` file of `fsIos1` is
classified AMBIGUOUS *in the `ios_upper` slot*.  Because `cache_matches` only
serializes MATCHED/MANUAL files with a type into the matched map, and only the
`unmatched_files` list into the unmatched path list, this file lands in neither
cached list; on `get_cached_matches` it is treated as a new file: the slot
comes back empty and the file reappears in `unmatched_files` with its
AMBIGUOUS status erased to UNMATCHED.  The round trip preserves neither the
slot contents nor the status. -/
theorem C2_roundtrip_loses_ambiguous_slot :
    (analyze_patient_folder_fresh fsIos1).ios_upper =
      some ⟨"/r/p1/scan/model.stl", none, 0, .AMBIGUOUS, []⟩ ∧
    (analyze_patient_folder_cached 0 srIos1 fsIos1
        (cache_matches_core 0 srIos1 (analyze_patient_folder_fresh fsIos1) [])).1.ios_upper
      = none ∧
    (analyze_patient_folder_cached 0 srIos1 fsIos1
        (cache_matches_core 0 srIos1 (analyze_patient_folder_fresh fsIos1) [])).1.unmatched_files
      = [⟨"/r/p1/scan/model.stl", none, 0, .UNMATCHED, []⟩] := by
  refine ⟨by decide, by decide, by decide⟩

/- ### C8 — counterexample -/

/-- C8 counterexample.  For an IOS folder containing exactly one non-ignored
`.stl` file matching neither keyword set, the claim says the AMBIGUOUS file is
placed in `unmatched_files` with both IOS slots left empty.  In the code,
`_analyze_ios_folder` returns the AMBIGUOUS record as the *first* component of
its pair, so `analyze_patient_folder` stores it in the `ios_upper` slot;
`unmatched_files` stays empty. -/
theorem C8_single_ambiguous_stl_sits_in_ios_upper :
    (analyze_patient_folder_fresh fsIos1).ios_upper =
      some ⟨"/r/p1/scan/model.stl", none, 0, .AMBIGUOUS, []⟩ ∧
    (analyze_patient_folder_fresh fsIos1).ios_lower = none ∧
    (analyze_patient_folder_fresh fsIos1).unmatched_files = [] := by
  refine ⟨by decide, by decide, by decide⟩

/- ### C5 — counterexample -/

set_option maxRecDepth 8000 in
/-- C5 counterexample.  `imgGray43` is an RGB image with identical channel
histograms (normalized cross-channel difference 0 < 0.2) and a keyword-free
filename, yet classification assigns it `INTRAORAL_PHOTO`: the grayscale
branch of `_analyze_image_properties` yields no type for aspect ratio 4/3
(outside both the [0.8, 1.2] and the >1.5 / <0.7 bands), and
`_analyze_single_file` then applies its unconditional default
`INTRAORAL_PHOTO` at confidence 0.5. -/
theorem C5_counterexample_gray_image_defaults_to_intraoral :
    avgHistDiff imgGray43 < mkRat 1 5 ∧
    matchesPatterns "img1.jpg" TELERADIO_PATTERNS = false ∧
    matchesPatterns "img1.jpg" ORTHO_PATTERNS = false ∧
    analyze_single_file "/r/p/img1.jpg" ⟨"img1.jpg", false, some imgGray43⟩ =
      ⟨"/r/p/img1.jpg", some .INTRAORAL_PHOTO, mkRat 1 2, .MATCHED, []⟩ := by
  refine ⟨by decide, by decide, by decide, by decide⟩

/- ### C4 — counterexample -/

/-- A patient folder with a CBCT subfolder holding one DICOM slice and a
teleradiography-keyword image in the main folder. -/
def fsCt : PatientFolderFS :=
  ⟨"/r/pC", true, .ofList [.dir "ct" (.ofList [.file ⟨"slice1.dcm", false, none⟩]),
    .file ⟨"tele_xray.jpg", false, none⟩]⟩

/-- Folder metadata for `fsCt`. -/
def srCt : StatResult :=
  .ok 1 4096 [(".", [("tele_xray.jpg", 1, 7)]), ("ct", [("slice1.dcm", 1, 9)])]

/-- State of the one-patient project over `fsCt` after manually reassigning
first the DICOM slice and then the teleradiography image to `EXCLUDE`. -/
def ctExcluded : Option ProjectDataM :=
  (update_patient_file_assignment (fun _ => true)
    (update_patient_file_assignment (fun _ => true)
      (some ⟨"/r", [analyze_patient_folder_fresh fsCt]⟩)
      "pC" "/r/pC/ct/slice1.dcm" .EXCLUDE).2
    "pC" "/r/pC/tele_xray.jpg" .EXCLUDE).2

/-- The patient aggregate after the two `EXCLUDE` reassignments. -/
def ctP2 : PatientData :=
  ((ctExcluded.getD ⟨"/r", []⟩).patients.headD (analyze_patient_folder_fresh fsCt))

/-- The classify-with-cache result over the unchanged folder after the
`EXCLUDE` reassignments were saved. -/
def ctReload : PatientData × List (String × CacheEntry) :=
  analyze_patient_folder_cached 0 srCt fsCt (cache_matches_core 0 srCt ctP2 [])

/-- C4 counterexample.  Two violations of the claim on one folder:
(1) a manual reassignment to `EXCLUDE` does not keep the file in the
structural location it occupied — the teleradiography occupant is moved to
`intraoral_photos` (the `EXCLUDE` branch of `_add_file_to_patient` dispatches
on the extension, not on the previous location); (2) applying the cache back
onto the freshly walked folder routes *no* `EXCLUDE` file into its structural
slot: `_assign_file_to_patient_structure` has no `EXCLUDE` case, so the DICOM
slice leaves `cbct_files` and both files land in `unmatched_files`. -/
theorem C4_exclude_routing_counterexample :
    -- after the manual EXCLUDE reassignments (before any cache interaction):
    ctP2.cbct_files =
      [⟨"/r/pC/ct/slice1.dcm", some .EXCLUDE, 1, .MANUAL, []⟩] ∧
    ctP2.teleradiography = none ∧
    ctP2.intraoral_photos =
      [⟨"/r/pC/tele_xray.jpg", some .EXCLUDE, 1, .MANUAL, []⟩] ∧
    -- after the cache-backed reconciliation of the unchanged folder:
    ctReload.1.cbct_files = [] ∧
    ctReload.1.intraoral_photos = [] ∧
    ctReload.1.unmatched_files =
      [⟨"/r/pC/ct/slice1.dcm", some .EXCLUDE, 1, .MANUAL, []⟩,
       ⟨"/r/pC/tele_xray.jpg", some .EXCLUDE, 1, .MANUAL, []⟩] := by
  refine ⟨by decide, by decide, by decide, by decide, by decide, by decide⟩

/- ### C9 — counterexample -/

/-- A well-formed `CacheEntry` payload used in raw-file scenarios. -/
def entryP9 : CacheEntry :=
  { patient_id := "p9", folder_path := "/r/p9", folder_hash := .timeFallback 0,
    timestamp := 0, file_count := 0 }

/-- A raw sidecar file whose single entry carries an unknown key
(`"bogus_key"`) next to the required ones — the shape an older or newer
schema version would produce. -/
def rawBogus : RawFile :=
  .jsonDict [("/r/p9", ⟨requiredCacheFields ++ ["bogus_key"], entryP9⟩)]

/-- An empty patient folder used in the raw-file scenarios. -/
def fsP9 : PatientFolderFS := ⟨"/r/p9", true, .nil⟩

/-- C9 counterexample.  In distributed mode (the default), a stored entry that
does not match the loader's schema is *not* treated as a cache miss: the
`CacheEntry(**entry_data)` conversion inside `load_patient_cache` raises
`TypeError` for the unknown key, and the surrounding `except (IOError,
json.JSONDecodeError)` clause does not catch it, so the exception propagates
out of `get_cached_matches` to the caller of `analyze_patient_folder`. -/
theorem C9_counterexample_schema_mismatch_raises :
    get_cached_matches_dist 0 (.ok 0 0 []) fsP9 (some rawBogus) = .error () := by
  rfl

/- ### C10 -/

/-- C10.  If reading the patient folder's metadata fails, `get_folder_hash`
returns the digest of the current wall-clock time instead of raising; distinct
clock readings give distinct fallback digests; and for any stored entry whose
hash was computed at another instant (or from readable contents),
`get_cached_matches` finds the fingerprints unequal, deletes the entry, and
returns `None` — cached data is never served for an unreadable folder. -/
theorem C10_unreadable_folder_never_served (t1 t2 : ℚ) (sr1 : StatResult)
    (fs : PatientFolderFS) (content : List (String × CacheEntry)) (e : CacheEntry)
    (hlook : dictLookup fs.folder_path content = some e)
    (hh : e.folder_hash = get_folder_hash t1 sr1)
    (hne : sr1 = .err → t1 ≠ t2) :
    get_folder_hash t2 .err = .timeFallback t2 ∧
    (t1 ≠ t2 → get_folder_hash t1 .err ≠ get_folder_hash t2 .err) ∧
    get_cached_matches_core t2 .err fs content =
      (none, dictRemove fs.folder_path content) := by
  refine ⟨rfl, fun hne12 hc => hne12 (by simpa [get_folder_hash] using hc), ?_⟩
  have hv : e.is_valid (get_folder_hash t2 .err) t2 = false := by
    unfold CacheEntry.is_valid
    rw [hh]
    cases sr1 with
    | ok m s w => simp [get_folder_hash]
    | err => simp [get_folder_hash, hne rfl]
  simp only [get_cached_matches_core, get_cache_key, hlook, hv]
  simp

/-- Witness for `C10_unreadable_folder_never_served` at a concrete store: an
entry fingerprinted at time 5 over an unreadable folder, probed at time 6. -/
theorem C10_witness :
    get_folder_hash 6 .err = .timeFallback 6 ∧
    ((5 : ℚ) ≠ 6 → get_folder_hash 5 .err ≠ get_folder_hash 6 .err) ∧
    get_cached_matches_core 6 .err fsP9
        [("/r/p9", { entryP9 with folder_hash := get_folder_hash 5 .err })] =
      (none, dictRemove "/r/p9"
        [("/r/p9", { entryP9 with folder_hash := get_folder_hash 5 .err })]) :=
  C10_unreadable_folder_never_served 5 6 .err fsP9
    [("/r/p9", { entryP9 with folder_hash := get_folder_hash 5 .err })]
    { entryP9 with folder_hash := get_folder_hash 5 .err } (by decide) rfl
    (fun _ => by decide)

/- ### C6 — helper lemmas about `_categorize_main_folder_files` -/

/-- Abbreviation: the analyzed records of a main-folder file list, in walk
order. -/
def analyzedRecords (files : List (String × FSFile)) : List FileData :=
  files.map fun pf => analyze_single_file pf.1 pf.2

theorem categorizeStep_tele_preserved (pd : PatientData) (fd : FileData) (x : FileData)
    (h : pd.teleradiography = some x) :
    (categorizeStep pd fd).teleradiography = some x := by
  unfold categorizeStep
  by_cases h1 : fd.data_type = some .TELERADIOGRAPHY
  · simp [h1, h]
  · by_cases h2 : fd.data_type = some .ORTHOPANTOMOGRAPHY
    · simp [h1, h2, h]
      cases hob : pd.orthopantomography <;> simp [h]
    · by_cases h3 : fd.data_type = some .INTRAORAL_PHOTO <;> simp [h1, h2, h3, h]

theorem categorizeStep_ortho_preserved (pd : PatientData) (fd : FileData) (x : FileData)
    (h : pd.orthopantomography = some x) :
    (categorizeStep pd fd).orthopantomography = some x := by
  unfold categorizeStep
  by_cases h1 : fd.data_type = some .TELERADIOGRAPHY
  · simp [h1, h]
    cases htb : pd.teleradiography <;> simp [h]
  · by_cases h2 : fd.data_type = some .ORTHOPANTOMOGRAPHY
    · simp [h1, h2, h]
    · by_cases h3 : fd.data_type = some .INTRAORAL_PHOTO <;> simp [h1, h2, h3, h]

theorem categorizeStep_unmatched_monotone (pd : PatientData) (fd : FileData)
    (g : FileData) (h : g ∈ pd.unmatched_files) :
    g ∈ (categorizeStep pd fd).unmatched_files := by
  unfold categorizeStep
  by_cases h1 : fd.data_type = some .TELERADIOGRAPHY
  · simp only [h1]
    cases htb : pd.teleradiography <;> simp_all
  · by_cases h2 : fd.data_type = some .ORTHOPANTOMOGRAPHY
    · simp only [h1, h2]
      cases hob : pd.orthopantomography <;> simp_all
    · by_cases h3 : fd.data_type = some .INTRAORAL_PHOTO <;> simp_all

theorem categorize_unmatched_monotone (files : List (String × FSFile))
    (pd : PatientData) (g : FileData) (h : g ∈ pd.unmatched_files) :
    g ∈ (categorize_main_folder_files files pd).unmatched_files := by
  induction files generalizing pd with
  | nil => exact h
  | cons f rest ih =>
    exact ih _ (categorizeStep_unmatched_monotone _ _ _ h)

theorem categorize_tele_occupied (files : List (String × FSFile))
    (pd : PatientData) (x : FileData) (h : pd.teleradiography = some x) :
    (categorize_main_folder_files files pd).teleradiography = some x := by
  induction files generalizing pd with
  | nil => exact h
  | cons f rest ih =>
    exact ih _ (categorizeStep_tele_preserved _ _ _ h)

theorem categorize_ortho_occupied (files : List (String × FSFile))
    (pd : PatientData) (x : FileData) (h : pd.orthopantomography = some x) :
    (categorize_main_folder_files files pd).orthopantomography = some x := by
  induction files generalizing pd with
  | nil => exact h
  | cons f rest ih =>
    exact ih _ (categorizeStep_ortho_preserved _ _ _ h)

theorem categorize_tele_ambiguous_when_occupied (files : List (String × FSFile))
    (pd : PatientData) (x : FileData) (h : pd.teleradiography = some x) :
    ∀ g ∈ (analyzedRecords files).filter
        (fun fd => fd.data_type = some .TELERADIOGRAPHY),
      { g with status := .AMBIGUOUS } ∈
        (categorize_main_folder_files files pd).unmatched_files := by
  induction files generalizing pd with
  | nil => intro g hg; simp [analyzedRecords] at hg
  | cons f rest ih =>
    intro g hg
    simp only [analyzedRecords, List.map_cons, List.filter_cons] at hg
    by_cases hdt : (analyze_single_file f.1 f.2).data_type = some .TELERADIOGRAPHY
    · rw [if_pos (by simpa using hdt)] at hg
      rcases List.mem_cons.mp hg with hg | hg
      · subst hg
        refine categorize_unmatched_monotone rest _ _ ?_
        show _ ∈ (categorizeStep pd (analyze_single_file f.1 f.2)).unmatched_files
        unfold categorizeStep
        simp [hdt, h]
      · exact ih _ (categorizeStep_tele_preserved _ _ _ h) g hg
    · rw [if_neg (by simpa using hdt)] at hg
      exact ih _ (categorizeStep_tele_preserved _ _ _ h) g hg

theorem categorize_ortho_ambiguous_when_occupied (files : List (String × FSFile))
    (pd : PatientData) (x : FileData) (h : pd.orthopantomography = some x) :
    ∀ g ∈ (analyzedRecords files).filter
        (fun fd => fd.data_type = some .ORTHOPANTOMOGRAPHY),
      { g with status := .AMBIGUOUS } ∈
        (categorize_main_folder_files files pd).unmatched_files := by
  induction files generalizing pd with
  | nil => intro g hg; simp [analyzedRecords] at hg
  | cons f rest ih =>
    intro g hg
    simp only [analyzedRecords, List.map_cons, List.filter_cons] at hg
    by_cases hdt : (analyze_single_file f.1 f.2).data_type = some .ORTHOPANTOMOGRAPHY
    · rw [if_pos (by simpa using hdt)] at hg
      rcases List.mem_cons.mp hg with hg | hg
      · subst hg
        refine categorize_unmatched_monotone rest _ _ ?_
        show _ ∈ (categorizeStep pd (analyze_single_file f.1 f.2)).unmatched_files
        unfold categorizeStep
        have hnt : (analyze_single_file f.1 f.2).data_type ≠ some .TELERADIOGRAPHY := by
          rw [hdt]; simp
        simp [hnt, hdt, h]
      · exact ih _ (categorizeStep_ortho_preserved _ _ _ h) g hg
    · rw [if_neg (by simpa using hdt)] at hg
      exact ih _ (categorizeStep_ortho_preserved _ _ _ h) g hg

theorem categorize_tele_empty (files : List (String × FSFile)) (pd : PatientData)
    (h : pd.teleradiography = none) :
    (categorize_main_folder_files files pd).teleradiography =
      (analyzedRecords files).find?
        (fun fd => fd.data_type = some .TELERADIOGRAPHY) := by
  induction files generalizing pd with
  | nil => simpa [analyzedRecords] using h
  | cons f rest ih =>
    simp only [analyzedRecords, List.map_cons]
    by_cases hdt : (analyze_single_file f.1 f.2).data_type = some .TELERADIOGRAPHY
    · rw [List.find?_cons_of_pos _ (by simpa using hdt)]
      show (categorize_main_folder_files rest
        (categorizeStep pd (analyze_single_file f.1 f.2))).teleradiography = _
      refine categorize_tele_occupied rest _ _ ?_
      unfold categorizeStep
      simp [hdt, h]
    · rw [List.find?_cons_of_neg _ (by simpa using hdt)]
      show (categorize_main_folder_files rest
        (categorizeStep pd (analyze_single_file f.1 f.2))).teleradiography = _
      refine ih _ ?_
      unfold categorizeStep
      by_cases h2 : (analyze_single_file f.1 f.2).data_type = some .ORTHOPANTOMOGRAPHY
      · simp only [hdt, h2]
        cases hob : pd.orthopantomography <;> simp [h]
      · by_cases h3 : (analyze_single_file f.1 f.2).data_type = some .INTRAORAL_PHOTO <;>
          simp [hdt, h2, h3, h]

theorem categorize_ortho_empty (files : List (String × FSFile)) (pd : PatientData)
    (h : pd.orthopantomography = none) :
    (categorize_main_folder_files files pd).orthopantomography =
      (analyzedRecords files).find?
        (fun fd => fd.data_type = some .ORTHOPANTOMOGRAPHY) := by
  induction files generalizing pd with
  | nil => simpa [analyzedRecords] using h
  | cons f rest ih =>
    simp only [analyzedRecords, List.map_cons]
    by_cases hdt : (analyze_single_file f.1 f.2).data_type = some .ORTHOPANTOMOGRAPHY
    · rw [List.find?_cons_of_pos _ (by simpa using hdt)]
      show (categorize_main_folder_files rest
        (categorizeStep pd (analyze_single_file f.1 f.2))).orthopantomography = _
      refine categorize_ortho_occupied rest _ _ ?_
      unfold categorizeStep
      have hnt : (analyze_single_file f.1 f.2).data_type ≠ some .TELERADIOGRAPHY := by
        rw [hdt]; simp
      simp [hnt, hdt, h]
    · rw [List.find?_cons_of_neg _ (by simpa using hdt)]
      show (categorize_main_folder_files rest
        (categorizeStep pd (analyze_single_file f.1 f.2))).orthopantomography = _
      refine ih _ ?_
      unfold categorizeStep
      by_cases h1 : (analyze_single_file f.1 f.2).data_type = some .TELERADIOGRAPHY
      · simp only [h1]
        cases htb : pd.teleradiography <;> simp [h]
      · by_cases h3 : (analyze_single_file f.1 f.2).data_type = some .INTRAORAL_PHOTO <;>
          simp [h1, hdt, h3, h]

/-- C6.  During classification of main-folder files into an aggregate whose
teleradiography and orthopantomography slots start empty, the first file in
walk order classifying into each of these singleton slots occupies it (the
slot ends up holding exactly the first matching analyzed record), and every
subsequent file classifying into the already-occupied slot is marked
AMBIGUOUS and appended to `unmatched_files` — the occupant is never
overwritten and no later file is dropped from the aggregate. -/
theorem C6_singleton_slot_first_wins (files : List (String × FSFile))
    (pd : PatientData) (ht : pd.teleradiography = none)
    (ho : pd.orthopantomography = none) :
    (categorize_main_folder_files files pd).teleradiography =
      (analyzedRecords files).find?
        (fun fd => fd.data_type = some .TELERADIOGRAPHY) ∧
    (categorize_main_folder_files files pd).orthopantomography =
      (analyzedRecords files).find?
        (fun fd => fd.data_type = some .ORTHOPANTOMOGRAPHY) ∧
    (∀ g ∈ ((analyzedRecords files).filter
        (fun fd => fd.data_type = some .TELERADIOGRAPHY)).drop 1,
      { g with status := .AMBIGUOUS } ∈
        (categorize_main_folder_files files pd).unmatched_files) ∧
    (∀ g ∈ ((analyzedRecords files).filter
        (fun fd => fd.data_type = some .ORTHOPANTOMOGRAPHY)).drop 1,
      { g with status := .AMBIGUOUS } ∈
        (categorize_main_folder_files files pd).unmatched_files) := by
  refine ⟨categorize_tele_empty files pd ht, categorize_ortho_empty files pd ho, ?_, ?_⟩
  · clear ho
    induction files generalizing pd with
    | nil => intro g hg; simp [analyzedRecords] at hg
    | cons f rest ih =>
      intro g hg
      simp only [analyzedRecords, List.map_cons, List.filter_cons] at hg
      by_cases hdt : (analyze_single_file f.1 f.2).data_type = some .TELERADIOGRAPHY
      · rw [if_pos (by simpa using hdt), List.drop_one, List.tail_cons] at hg
        have hslot : (categorizeStep pd (analyze_single_file f.1 f.2)).teleradiography =
            some (analyze_single_file f.1 f.2) := by
          unfold categorizeStep; simp [hdt, ht]
        exact categorize_tele_ambiguous_when_occupied rest _ _ hslot g hg
      · rw [if_neg (by simpa using hdt)] at hg
        have ht' : (categorizeStep pd (analyze_single_file f.1 f.2)).teleradiography
            = none := by
          unfold categorizeStep
          by_cases h2 : (analyze_single_file f.1 f.2).data_type = some .ORTHOPANTOMOGRAPHY
          · simp only [hdt, h2]
            cases hob : pd.orthopantomography <;> simp [ht]
          · by_cases h3 : (analyze_single_file f.1 f.2).data_type = some .INTRAORAL_PHOTO <;>
              simp [hdt, h2, h3, ht]
        exact ih _ ht' g hg
  · clear ht
    induction files generalizing pd with
    | nil => intro g hg; simp [analyzedRecords] at hg
    | cons f rest ih =>
      intro g hg
      simp only [analyzedRecords, List.map_cons, List.filter_cons] at hg
      by_cases hdt : (analyze_single_file f.1 f.2).data_type = some .ORTHOPANTOMOGRAPHY
      · rw [if_pos (by simpa using hdt), List.drop_one, List.tail_cons] at hg
        have hnt : (analyze_single_file f.1 f.2).data_type ≠ some .TELERADIOGRAPHY := by
          rw [hdt]; simp
        have hslot : (categorizeStep pd (analyze_single_file f.1 f.2)).orthopantomography =
            some (analyze_single_file f.1 f.2) := by
          unfold categorizeStep; simp [hnt, hdt, ho]
        exact categorize_ortho_ambiguous_when_occupied rest _ _ hslot g hg
      · rw [if_neg (by simpa using hdt)] at hg
        have ho' : (categorizeStep pd (analyze_single_file f.1 f.2)).orthopantomography
            = none := by
          unfold categorizeStep
          by_cases h1 : (analyze_single_file f.1 f.2).data_type = some .TELERADIOGRAPHY
          · simp only [h1]
            cases htb : pd.teleradiography <;> simp [ho]
          · by_cases h3 : (analyze_single_file f.1 f.2).data_type = some .INTRAORAL_PHOTO <;>
              simp [h1, hdt, h3, ho]
        exact ih _ ho' g hg

/-- Walk-order main-folder file list with two orthopantomography-keyword
images (the two files of `fsOrtho`). -/
def mainTwoOrtho : List (String × FSFile) :=
  [("/r/pA/panoramic_v1.jpg", ⟨"panoramic_v1.jpg", false, none⟩),
   ("/r/pA/panoramic_v2.jpg", ⟨"panoramic_v2.jpg", false, none⟩)]

/-- An aggregate with empty singleton slots, as classification starts from. -/
def emptyPatientPA : PatientData := { patient_id := "pA", folder_path := "/r/pA" }

/-- Witness for `C6_singleton_slot_first_wins`: both hypotheses hold for the
freshly constructed aggregate, and the theorem applies to the two-ortho-image
folder. -/
theorem C6_witness :
    emptyPatientPA.teleradiography = none ∧
    emptyPatientPA.orthopantomography = none ∧
    ((categorize_main_folder_files mainTwoOrtho emptyPatientPA).teleradiography =
        (analyzedRecords mainTwoOrtho).find?
          (fun fd => fd.data_type = some .TELERADIOGRAPHY) ∧
      (categorize_main_folder_files mainTwoOrtho emptyPatientPA).orthopantomography =
        (analyzedRecords mainTwoOrtho).find?
          (fun fd => fd.data_type = some .ORTHOPANTOMOGRAPHY) ∧
      (∀ g ∈ ((analyzedRecords mainTwoOrtho).filter
          (fun fd => fd.data_type = some .TELERADIOGRAPHY)).drop 1,
        { g with status := .AMBIGUOUS } ∈
          (categorize_main_folder_files mainTwoOrtho emptyPatientPA).unmatched_files) ∧
      (∀ g ∈ ((analyzedRecords mainTwoOrtho).filter
          (fun fd => fd.data_type = some .ORTHOPANTOMOGRAPHY)).drop 1,
        { g with status := .AMBIGUOUS } ∈
          (categorize_main_folder_files mainTwoOrtho emptyPatientPA).unmatched_files)) :=
  ⟨rfl, rfl, C6_singleton_slot_first_wins mainTwoOrtho emptyPatientPA rfl rfl⟩

/- ### C7 — helper lemmas about reassignment -/

theorem optSlot_count (s : Option FileData) (X : FileData) :
    (optSlot s).count X = if s = some X then 1 else 0 := by
  cases s with
  | none => simp [optSlot]
  | some y =>
    by_cases h : y = X
    · simp [optSlot, h]
    · have h2 : ¬ X = y := fun hx => h hx.symm
      simp [optSlot, h, List.count_cons, h2]

theorem optSlot_clear_length (s : Option FileData) (X : FileData) :
    (optSlot (if s = some X then none else s)).length =
      (optSlot s).length - (if s = some X then 1 else 0) := by
  cases s with
  | none => simp [optSlot]
  | some y => by_cases h : y = X <;> simp [optSlot, h]

theorem optSlot_some_len (fd : FileData) : (optSlot (some fd)).length = 1 := rfl

/-- Removing a file that occurs exactly once in the aggregate shrinks
`get_all_files` by exactly one. -/
theorem remove_file_length (pt : PatientData) (X : FileData)
    (h : pt.get_all_files.count X = 1) :
    (remove_file_from_patient pt X).get_all_files.length + 1 =
      pt.get_all_files.length := by
  unfold PatientData.get_all_files at h ⊢
  unfold remove_file_from_patient
  simp only [List.count_append, optSlot_count] at h
  simp only [List.length_append, optSlot_clear_length]
  by_cases hc : X ∈ pt.cbct_files <;>
    by_cases hp : X ∈ pt.intraoral_photos <;>
    by_cases hn : X ∈ pt.unmatched_files <;>
  · try rw [List.count_eq_zero_of_not_mem hc] at h
    try rw [List.count_eq_zero_of_not_mem hp] at h
    try rw [List.count_eq_zero_of_not_mem hn] at h
    try have c1 : 0 < pt.cbct_files.count X := List.count_pos_iff.mpr hc
    try have c2 : 0 < pt.intraoral_photos.count X := List.count_pos_iff.mpr hp
    try have c3 : 0 < pt.unmatched_files.count X := List.count_pos_iff.mpr hn
    have d1 : pt.cbct_files.count X ≤ pt.cbct_files.length := List.count_le_length _ _
    have d2 : pt.intraoral_photos.count X ≤ pt.intraoral_photos.length :=
      List.count_le_length _ _
    have d3 : pt.unmatched_files.count X ≤ pt.unmatched_files.length :=
      List.count_le_length _ _
    try rw [List.erase_of_not_mem hc]
    try rw [List.erase_of_not_mem hp]
    try rw [List.erase_of_not_mem hn]
    try rw [List.length_erase_of_mem hc]
    try rw [List.length_erase_of_mem hp]
    try rw [List.length_erase_of_mem hn]
    by_cases hu : pt.ios_upper = some X <;>
      by_cases hl : pt.ios_lower = some X <;>
      by_cases ht : pt.teleradiography = some X <;>
      by_cases ho : pt.orthopantomography = some X <;>
      simp only [hu, hl, ht, ho, optSlot_some_len, if_true, if_false,
        ite_true, ite_false, eq_self_iff_true, reduceIte] at h ⊢ <;>
      omega

/-- The singleton slot a `DataType` addresses, if any. -/
def slotOf (pt : PatientData) : DataType → Option FileData
  | .IOS_UPPER => pt.ios_upper
  | .IOS_LOWER => pt.ios_lower
  | .TELERADIOGRAPHY => pt.teleradiography
  | .ORTHOPANTOMOGRAPHY => pt.orthopantomography
  | _ => none

theorem remove_keeps_other_slot (pt : PatientData) (X Y : FileData) (dt : DataType)
    (hslot : slotOf pt dt = some Y) (hYX : Y ≠ X) :
    slotOf (remove_file_from_patient pt X) dt = some Y := by
  have hne : ∀ s : Option FileData, s = some Y →
      (if s = some X then none else s) = some Y := by
    intro s hs
    rw [hs, if_neg (by simpa using hYX)]
  cases dt <;> simp only [slotOf, remove_file_from_patient] at hslot ⊢ <;>
    exact hne _ hslot

theorem add_file_displaces (pt : PatientData) (fd Y : FileData) (dt : DataType)
    (hdt : dt = .IOS_UPPER ∨ dt = .IOS_LOWER ∨ dt = .TELERADIOGRAPHY ∨
      dt = .ORTHOPANTOMOGRAPHY)
    (hfd : fd.data_type = some dt)
    (hslot : slotOf pt dt = some Y) :
    slotOf (add_file_to_patient pt fd) dt = some fd ∧
    Y ∈ (add_file_to_patient pt fd).unmatched_files ∧
    (add_file_to_patient pt fd).get_all_files.length =
      pt.get_all_files.length + 1 := by
  rcases hdt with h | h | h | h <;> subst h <;>
    simp only [slotOf] at hslot <;>
    unfold add_file_to_patient <;> simp only [hfd] <;>
    refine ⟨rfl, ?_, ?_⟩ <;>
    simp [PatientData.get_all_files, hslot, optSlot, List.length_append] <;>
    omega

/-- C7.  A successful manual reassignment that moves a file `X` (present
exactly once in the aggregate) into a singleton slot already occupied by a
different file `Y` displaces `Y` into `unmatched_files` (neither deleted nor
overwritten), installs `X` in the slot with the target `data_type`, status
`MANUAL` and confidence 1.0, and leaves the total number of files reported by
`get_all_files` unchanged. -/
theorem C7_displacement_not_deletion (fileExists : String → Bool)
    (proj : ProjectDataM) (patient_id : String) (pt : PatientData)
    (X Y : FileData) (dt : DataType)
    (hfind : proj.patients.find? (fun p => p.patient_id = patient_id) = some pt)
    (hex : fileExists X.path = true)
    (hff : find_file pt X.path = some X)
    (hcount : pt.get_all_files.count X = 1)
    (hdt : dt = .IOS_UPPER ∨ dt = .IOS_LOWER ∨ dt = .TELERADIOGRAPHY ∨
      dt = .ORTHOPANTOMOGRAPHY)
    (hslot : slotOf pt dt = some Y)
    (hYX : Y ≠ X) :
    (update_patient_file_assignment fileExists (some proj) patient_id X.path dt).1
      = true ∧
    (update_patient_file_assignment fileExists (some proj) patient_id X.path dt).2
      = some { proj with patients := (replacePatient patient_id
          (add_file_to_patient (remove_file_from_patient pt X)
            { X with data_type := some dt, confidence := 1, status := .MANUAL })
          proj.patients) } ∧
    slotOf (add_file_to_patient (remove_file_from_patient pt X)
        { X with data_type := some dt, confidence := 1, status := .MANUAL }) dt
      = some { X with data_type := some dt, confidence := 1, status := .MANUAL } ∧
    Y ∈ (add_file_to_patient (remove_file_from_patient pt X)
        { X with data_type := some dt, confidence := 1, status := .MANUAL }).unmatched_files ∧
    (add_file_to_patient (remove_file_from_patient pt X)
        { X with data_type := some dt, confidence := 1, status := .MANUAL }).get_all_files.length
      = pt.get_all_files.length := by
  have hres : update_patient_file_assignment fileExists (some proj) patient_id X.path dt =
      (true, some { proj with patients := (replacePatient patient_id
        (add_file_to_patient (remove_file_from_patient pt X)
          { X with data_type := some dt, confidence := 1, status := .MANUAL })
        proj.patients) }) := by
    unfold update_patient_file_assignment
    simp [hex, hfind, hff]
  have hslot1 : slotOf (remove_file_from_patient pt X) dt = some Y :=
    remove_keeps_other_slot pt X Y dt hslot hYX
  have hadd := add_file_displaces (remove_file_from_patient pt X)
    { X with data_type := some dt, confidence := 1, status := .MANUAL } Y dt hdt rfl hslot1
  have hlen := remove_file_length pt X hcount
  exact ⟨by rw [hres], by rw [hres], hadd.1, hadd.2.1, by omega⟩

/-- The AMBIGUOUS second orthopantomography record of `orthoP0` (the file the
human then reassigns manually). -/
def c7X : FileData :=
  ⟨"/r/pA/panoramic_v2.jpg", some .ORTHOPANTOMOGRAPHY, mkRat 7 10, .AMBIGUOUS, []⟩

/-- The automatic occupant of the orthopantomography slot of `orthoP0`. -/
def c7Y : FileData :=
  ⟨"/r/pA/panoramic_v1.jpg", some .ORTHOPANTOMOGRAPHY, mkRat 7 10, .MATCHED, []⟩

/-- Witness for `C7_displacement_not_deletion` on the classified two-ortho
folder: all hypotheses hold concretely and the theorem applies. -/
theorem C7_witness :
    ([orthoP0].find? (fun p => p.patient_id = "pA") = some orthoP0 ∧
      (fun _ : String => true) c7X.path = true ∧
      find_file orthoP0 c7X.path = some c7X ∧
      orthoP0.get_all_files.count c7X = 1 ∧
      slotOf orthoP0 .ORTHOPANTOMOGRAPHY = some c7Y ∧
      c7Y ≠ c7X) ∧
    (update_patient_file_assignment (fun _ => true) (some ⟨"/r", [orthoP0]⟩)
        "pA" c7X.path .ORTHOPANTOMOGRAPHY).1 = true ∧
    slotOf (add_file_to_patient (remove_file_from_patient orthoP0 c7X)
        { c7X with data_type := some .ORTHOPANTOMOGRAPHY, confidence := 1,
                   status := .MANUAL }) .ORTHOPANTOMOGRAPHY
      = some { c7X with data_type := some .ORTHOPANTOMOGRAPHY, confidence := 1,
                        status := .MANUAL } ∧
    c7Y ∈ (add_file_to_patient (remove_file_from_patient orthoP0 c7X)
        { c7X with data_type := some .ORTHOPANTOMOGRAPHY, confidence := 1,
                   status := .MANUAL }).unmatched_files ∧
    (add_file_to_patient (remove_file_from_patient orthoP0 c7X)
        { c7X with data_type := some .ORTHOPANTOMOGRAPHY, confidence := 1,
                   status := .MANUAL }).get_all_files.length
      = orthoP0.get_all_files.length := by
  have h := C7_displacement_not_deletion (fun _ => true) ⟨"/r", [orthoP0]⟩ "pA"
    orthoP0 c7X c7Y .ORTHOPANTOMOGRAPHY (by decide) rfl (by decide) (by decide)
    (by simp) (by decide) (by decide)
  exact ⟨⟨by decide, rfl, by decide, by decide, by decide, by decide⟩,
    h.1, h.2.2.1, h.2.2.2.1, h.2.2.2.2⟩

/- ### C5 — amended theorem -/

/-- C5 (amended).  For every openable RGB image whose filename matches neither
keyword family and whose normalized cross-channel histogram difference is
below 0.2 (`mkRat 1 5`), classification can only produce TELERADIOGRAPHY,
ORTHOPANTOMOGRAPHY, or INTRAORAL_PHOTO (never a facial-photo type, which does
not even exist in `models.DataType`); and it produces INTRAORAL_PHOTO *only*
through `_analyze_single_file`'s low-confidence default (confidence 0.5), which
fires exactly when the aspect ratio escapes both grayscale bands
([0.8, 1.2] for teleradiography, >1.5 or <0.7 for orthopantomography). -/
theorem C5_grayscale_suppression_amended (p : String) (f : FSFile) (img : RGBImage)
    (himg : f.image = some img)
    (hw : 0 < img.width) (hh : 0 < img.height)
    (hhist : avgHistDiff img < mkRat 1 5)
    (hext : strLower (splitextExt (strLower (basename p))) ∈
      [".jpg", ".jpeg", ".png", ".bmp", ".tiff", ".tif"])
    (htele : matchesPatterns (strLower (basename p)) TELERADIO_PATTERNS = false)
    (hortho : matchesPatterns (strLower (basename p)) ORTHO_PATTERNS = false) :
    (∀ dt, (analyze_single_file p f).data_type = some dt →
      dt = .TELERADIOGRAPHY ∨ dt = .ORTHOPANTOMOGRAPHY ∨ dt = .INTRAORAL_PHOTO) ∧
    ((analyze_single_file p f).data_type = some .INTRAORAL_PHOTO →
      (analyze_single_file p f).confidence = mkRat 1 2 ∧
      ¬(mkRat 4 5 ≤ qdiv (img.width : ℚ) (img.height : ℚ) ∧
          qdiv (img.width : ℚ) (img.height : ℚ) ≤ mkRat 6 5) ∧
      ¬(qdiv (img.width : ℚ) (img.height : ℚ) > mkRat 3 2 ∨
          qdiv (img.width : ℚ) (img.height : ℚ) < mkRat 7 10)) := by
  have hgray : is_grayscale_image img = true := by
    unfold is_grayscale_image
    rw [if_neg (Nat.mul_ne_zero (by omega) (by omega))]
    have h53 : (mkRat 1 5 : ℚ) ≤ mkRat 3 10 := by
      rw [Rat.mkRat_eq_div, Rat.mkRat_eq_div]; norm_num
    exact decide_eq_true (lt_of_lt_of_le hhist h53)
  have hprops : analyze_image_properties f.image =
      (if mkRat 4 5 ≤ qdiv (img.width : ℚ) (img.height : ℚ) ∧
          qdiv (img.width : ℚ) (img.height : ℚ) ≤ mkRat 6 5 then
        some .TELERADIOGRAPHY
      else if qdiv (img.width : ℚ) (img.height : ℚ) > mkRat 3 2 ∨
          qdiv (img.width : ℚ) (img.height : ℚ) < mkRat 7 10 then
        some .ORTHOPANTOMOGRAPHY
      else none) := by
    rw [himg]
    simp only [analyze_image_properties]
    rw [if_neg (by omega)]
    simp only [hgray]
    simp
  have hsingle : analyze_single_file p f =
      match analyze_image_properties f.image with
      | some image_type =>
        { path := p, data_type := some image_type,
          confidence :=
            if image_type = .TELERADIOGRAPHY ∨ image_type = .ORTHOPANTOMOGRAPHY
            then mkRat 3 5 else mkRat 4 5,
          status := .MATCHED }
      | none =>
        { path := p, data_type := some .INTRAORAL_PHOTO, confidence := mkRat 1 2,
          status := .MATCHED } := by
    unfold analyze_single_file
    rw [if_pos hext, if_neg (by simp [htele]), if_neg (by simp [hortho])]
  by_cases hb1 : mkRat 4 5 ≤ qdiv (img.width : ℚ) (img.height : ℚ) ∧
      qdiv (img.width : ℚ) (img.height : ℚ) ≤ mkRat 6 5
  · rw [hprops, if_pos hb1] at hsingle
    rw [hsingle]
    exact ⟨fun dt hdt => by simp at hdt; simp [← hdt], by simp⟩
  · by_cases hb2 : qdiv (img.width : ℚ) (img.height : ℚ) > mkRat 3 2 ∨
        qdiv (img.width : ℚ) (img.height : ℚ) < mkRat 7 10
    · rw [hprops, if_neg hb1, if_pos hb2] at hsingle
      rw [hsingle]
      exact ⟨fun dt hdt => by simp at hdt; simp [← hdt], by simp⟩
    · rw [hprops, if_neg hb1, if_neg hb2] at hsingle
      rw [hsingle]
      exact ⟨fun dt hdt => by simp at hdt; simp [← hdt], fun _ => ⟨rfl, hb1, hb2⟩⟩

set_option maxRecDepth 8000 in
/-- Witness for `C5_grayscale_suppression_amended` at the concrete 4×3
near-grayscale image. -/
theorem C5_witness :
    ((⟨"img1.jpg", false, some imgGray43⟩ : FSFile).image = some imgGray43 ∧
      0 < imgGray43.width ∧ 0 < imgGray43.height ∧
      avgHistDiff imgGray43 < mkRat 1 5 ∧
      strLower (splitextExt (strLower (basename "/r/p/img1.jpg"))) ∈
        [".jpg", ".jpeg", ".png", ".bmp", ".tiff", ".tif"] ∧
      matchesPatterns (strLower (basename "/r/p/img1.jpg")) TELERADIO_PATTERNS = false ∧
      matchesPatterns (strLower (basename "/r/p/img1.jpg")) ORTHO_PATTERNS = false) ∧
    ((∀ dt, (analyze_single_file "/r/p/img1.jpg"
        ⟨"img1.jpg", false, some imgGray43⟩).data_type = some dt →
        dt = .TELERADIOGRAPHY ∨ dt = .ORTHOPANTOMOGRAPHY ∨ dt = .INTRAORAL_PHOTO) ∧
      ((analyze_single_file "/r/p/img1.jpg"
          ⟨"img1.jpg", false, some imgGray43⟩).data_type = some .INTRAORAL_PHOTO →
        (analyze_single_file "/r/p/img1.jpg"
          ⟨"img1.jpg", false, some imgGray43⟩).confidence = mkRat 1 2 ∧
        ¬(mkRat 4 5 ≤ qdiv (imgGray43.width : ℚ) (imgGray43.height : ℚ) ∧
            qdiv (imgGray43.width : ℚ) (imgGray43.height : ℚ) ≤ mkRat 6 5) ∧
        ¬(qdiv (imgGray43.width : ℚ) (imgGray43.height : ℚ) > mkRat 3 2 ∨
            qdiv (imgGray43.width : ℚ) (imgGray43.height : ℚ) < mkRat 7 10))) :=
  ⟨⟨rfl, by decide, by decide, by decide, by decide, by decide, by decide⟩,
    C5_grayscale_suppression_amended "/r/p/img1.jpg"
      ⟨"img1.jpg", false, some imgGray43⟩ imgGray43 rfl (by decide) (by decide)
      (by decide) (by decide) (by decide) (by decide)⟩

/- ### C8 — amended theorem -/

theorem categorizeStep_ios_frame (pd : PatientData) (fd : FileData) :
    (categorizeStep pd fd).ios_upper = pd.ios_upper ∧
    (categorizeStep pd fd).ios_lower = pd.ios_lower := by
  unfold categorizeStep
  by_cases h1 : fd.data_type = some .TELERADIOGRAPHY
  · simp only [h1]; cases pd.teleradiography <;> simp
  · by_cases h2 : fd.data_type = some .ORTHOPANTOMOGRAPHY
    · simp only [h1, h2]; cases pd.orthopantomography <;> simp
    · by_cases h3 : fd.data_type = some .INTRAORAL_PHOTO <;> simp [h1, h2, h3]

theorem categorize_ios_frame (files : List (String × FSFile)) (pd : PatientData) :
    (categorize_main_folder_files files pd).ios_upper = pd.ios_upper ∧
    (categorize_main_folder_files files pd).ios_lower = pd.ios_lower := by
  induction files generalizing pd with
  | nil => exact ⟨rfl, rfl⟩
  | cons f rest ih =>
    have hs := categorizeStep_ios_frame pd (analyze_single_file f.1 f.2)
    have hr := ih (categorizeStep pd (analyze_single_file f.1 f.2))
    exact ⟨hr.1.trans hs.1, hr.2.trans hs.2⟩

/-- C8 (amended).  When the discovered IOS folder contains exactly one
non-ignored `.stl` file whose name matches neither the upper nor the lower
keyword set, classification marks that file AMBIGUOUS with no `data_type` and
confidence 0 and places it in the `ios_upper` slot of the aggregate, leaving
`ios_lower` empty (it is not placed in `unmatched_files`; see the
counterexample for the original wording). -/
theorem C8_single_stl_amended (fs : PatientFolderFS) (ip q : String)
    (ies : EntryList)
    (hex : fs.exists_fs = true)
    (hio : (find_special_folders fs.folder_path fs.entries).2 = some (ip, ies))
    (hstl : stlFilesOf ip ies = [q])
    (hup : matchesPatterns (strLower (basename q)) UPPER_PATTERNS = false)
    (hlo : matchesPatterns (strLower (basename q)) LOWER_PATTERNS = false) :
    (analyze_patient_folder_fresh fs).ios_upper =
      some ⟨q, none, 0, .AMBIGUOUS, []⟩ ∧
    (analyze_patient_folder_fresh fs).ios_lower = none := by
  have hios : analyze_ios_folder ip ies =
      (some ⟨q, none, 0, .AMBIGUOUS, []⟩, none) := by
    unfold analyze_ios_folder
    rw [hstl]
    simp [hup, hlo]
  unfold analyze_patient_folder_fresh
  rw [if_neg (by simp [hex])]
  rcases hcb : (find_special_folders fs.folder_path fs.entries).1 with _ | cp <;>
    simp only [hcb, hio, hios] <;>
    exact categorize_ios_frame _ _

/-- Witness for `C8_single_stl_amended` on the concrete one-stl folder. -/
theorem C8_witness :
    (fsIos1.exists_fs = true ∧
      (find_special_folders fsIos1.folder_path fsIos1.entries).2 =
        some ("/r/p1/scan", .ofList [.file ⟨"model.stl", false, none⟩]) ∧
      stlFilesOf "/r/p1/scan" (.ofList [.file ⟨"model.stl", false, none⟩]) =
        ["/r/p1/scan/model.stl"] ∧
      matchesPatterns (strLower (basename "/r/p1/scan/model.stl")) UPPER_PATTERNS
        = false ∧
      matchesPatterns (strLower (basename "/r/p1/scan/model.stl")) LOWER_PATTERNS
        = false) ∧
    (analyze_patient_folder_fresh fsIos1).ios_upper =
      some ⟨"/r/p1/scan/model.stl", none, 0, .AMBIGUOUS, []⟩ ∧
    (analyze_patient_folder_fresh fsIos1).ios_lower = none := by
  refine ⟨⟨rfl, by rfl, by decide, by decide, by decide⟩, ?_⟩
  exact C8_single_stl_amended fsIos1 "/r/p1/scan" "/r/p1/scan/model.stl"
    (.ofList [.file ⟨"model.stl", false, none⟩]) rfl (by rfl) (by decide)
    (by decide) (by decide)

/- ### C9 — amended theorem -/

theorem dictLookup_load_cache_none (k : String) (es : List (String × RawEntry))
    (h : ∀ r, (k, r) ∈ es → cacheEntryFromDict r = none) :
    dictLookup k (load_cache (some (.jsonDict es))) = none := by
  induction es with
  | nil => rfl
  | cons ke rest ih =>
    have hrest : dictLookup k (rest.filterMap fun ke =>
        (cacheEntryFromDict ke.2).map fun e => (ke.1, e)) = none := by
      have hx := ih fun r hr => h r (List.mem_cons_of_mem _ hr)
      simpa only [load_cache] using hx
    simp only [load_cache, List.filterMap_cons]
    rcases hke : cacheEntryFromDict ke.2 with _ | e
    · exact hrest
    · show dictLookup k ((ke.1, e) :: _) = none
      unfold dictLookup
      by_cases hkk : ke.1 = k
      · exfalso
        have hmem : (k, ke.2) ∈ ke :: rest := by
          rw [← hkk]; exact List.mem_cons_self _ _
        have := h ke.2 hmem
        rw [this] at hke; cases hke
      · rw [if_neg hkk]
        exact hrest

/-- C9 (amended).  Cache-load failure handling differs by mode.  In
distributed mode (the default), a missing, unreadable or non-JSON-decodable
sidecar file is caught and `get_cached_matches` behaves as a cache miss; but a
schema mismatch — an entry that does not fit the `CacheEntry` constructor —
raises and propagates (see the counterexample).  In centralized mode every
malformed entry is skipped at load time, so a folder whose stored entry is
malformed gets a cache miss and no exception. -/
theorem C9_load_failure_amended (now : ℚ) (sr : StatResult) (fs : PatientFolderFS) :
    (∀ raw, (raw = none ∨ raw = some .unreadable ∨ raw = some .notJson) →
      get_cached_matches_dist now sr fs raw = .ok (none, [])) ∧
    (∀ es : List (String × RawEntry),
      (∀ r, (fs.folder_path, r) ∈ es → cacheEntryFromDict r = none) →
      (get_cached_matches_cent now sr fs (some (.jsonDict es))).1 = none) := by
  constructor
  · rintro raw (rfl | rfl | rfl) <;> rfl
  · intro es h
    unfold get_cached_matches_cent get_cached_matches_core
    simp only [get_cache_key, dictLookup_load_cache_none fs.folder_path es h]

/-- Witness for `C9_load_failure_amended`: the corrupt-file cases at a
concrete folder, and the centralized skip of the `rawBogus` entry. -/
theorem C9_witness :
    ((some RawFile.notJson = none ∨ some RawFile.notJson = some .unreadable ∨
        some RawFile.notJson = some .notJson) ∧
      get_cached_matches_dist 0 (.ok 0 0 []) fsP9 (some .notJson) = .ok (none, [])) ∧
    ((∀ r, ("/r/p9", r) ∈ [("/r/p9",
        (⟨requiredCacheFields ++ ["bogus_key"], entryP9⟩ : RawEntry))] →
      cacheEntryFromDict r = none) ∧
      (get_cached_matches_cent 0 (.ok 0 0 []) fsP9
        (some (.jsonDict [("/r/p9",
          ⟨requiredCacheFields ++ ["bogus_key"], entryP9⟩)]))).1 = none) := by
  have h := C9_load_failure_amended 0 (.ok 0 0 []) fsP9
  refine ⟨⟨Or.inr (Or.inr rfl), h.1 (some .notJson) (Or.inr (Or.inr rfl))⟩, ?_, ?_⟩
  · rintro r hr
    simp only [List.mem_singleton, Prod.mk.injEq] at hr
    rw [hr.2]
    rfl
  · refine h.2 _ ?_
    rintro r hr
    simp only [List.mem_singleton, Prod.mk.injEq] at hr
    rw [hr.2]
    rfl

/- ### C2/C4 — machinery for `apply_cached_matches` -/

theorem dictLookup_insert_self {α : Type} (k : String) (v : α) (d : List (String × α)) :
    dictLookup k (dictInsert k v d) = some v := by
  induction d with
  | nil => simp [dictInsert, dictLookup]
  | cons kv rest ih =>
    by_cases h : kv.1 = k
    · simp [dictInsert, dictLookup, h]
    · simp [dictInsert, dictLookup, h, ih]

theorem dictLookup_insert_ne {α : Type} (k k' : String) (v : α)
    (d : List (String × α)) (h : k ≠ k') :
    dictLookup k' (dictInsert k v d) = dictLookup k' d := by
  induction d with
  | nil => simp [dictInsert, dictLookup, fun hc => h hc]
  | cons kv rest ih =>
    by_cases hk : kv.1 = k
    · simp only [dictInsert, if_pos hk, dictLookup]
      rw [if_neg (by rw [hk]; exact h), if_neg (by rw [hk]; exact h)]
    · simp only [dictInsert, if_neg hk, dictLookup]
      by_cases hk' : kv.1 = k'
      · rw [if_pos hk', if_pos hk']
      · rw [if_neg hk', if_neg hk', ih]

theorem dictInsert_fresh {α : Type} (k : String) (v : α) (d : List (String × α))
    (h : k ∉ d.map (·.1)) :
    dictInsert k v d = d ++ [(k, v)] := by
  induction d with
  | nil => rfl
  | cons kv rest ih =>
    obtain ⟨k', v'⟩ := kv
    simp only [List.map_cons, List.mem_cons] at h
    push_neg at h
    simp only [dictInsert, if_neg (fun hc : k' = k => h.1 hc.symm), List.cons_append]
    rw [ih h.2]

/-- With pairwise-distinct paths, the `file_lookup` construction is the plain
association list of the files. -/
theorem buildStore_eq (files : List FileData) (acc : List (String × FileData))
    (hfresh : ∀ fd ∈ files, fd.path ∉ acc.map (·.1))
    (hnodup : (files.map (·.path)).Nodup) :
    files.foldl (fun d fd => dictInsert fd.path fd d) acc =
      acc ++ files.map fun fd => (fd.path, fd) := by
  induction files generalizing acc with
  | nil => simp
  | cons fd rest ih =>
    simp only [List.map_cons, List.nodup_cons] at hnodup
    simp only [List.foldl_cons, List.map_cons]
    rw [dictInsert_fresh fd.path fd acc (hfresh fd (List.mem_cons_self _ _)), ih]
    · simp
    · intro g hg
      simp only [List.map_append, List.mem_append]
      push_neg
      refine ⟨hfresh g (List.mem_cons_of_mem _ hg), ?_⟩
      simp only [List.map_cons, List.map_nil, List.mem_singleton]
      intro hc
      exact hnodup.1 (by rw [← hc]; exact List.mem_map_of_mem _ hg)
    · exact hnodup.2

theorem assocLookup_of_mem (files : List FileData) (fd : FileData)
    (hnodup : (files.map (·.path)).Nodup) (hmem : fd ∈ files) :
    dictLookup fd.path (files.map fun g => (g.path, g)) = some fd := by
  induction files with
  | nil => cases hmem
  | cons g rest ih =>
    simp only [List.map_cons, List.nodup_cons] at hnodup
    rcases List.mem_cons.mp hmem with h | h
    · subst h
      simp [dictLookup]
    · simp only [List.map_cons, dictLookup]
      rw [if_neg, ih hnodup.2 h]
      intro hc
      exact hnodup.1 (by rw [hc]; exact List.mem_map_of_mem _ h)

theorem assocLookup_inv (files : List FileData) (p : String) (fd : FileData)
    (h : dictLookup p (files.map fun g => (g.path, g)) = some fd) :
    fd ∈ files ∧ fd.path = p := by
  induction files with
  | nil => cases h
  | cons g rest ih =>
    simp only [List.map_cons, dictLookup] at h
    by_cases hp : g.path = p
    · rw [if_pos hp] at h
      cases h
      exact ⟨List.mem_cons_self _ _, hp⟩
    · rw [if_neg hp] at h
      have := ih h
      exact ⟨List.mem_cons_of_mem _ this.1, this.2⟩

/-- Two files of a duplicate-free aggregate with the same path are the same
record. -/
theorem same_path_same_file (files : List FileData) (fd g : FileData)
    (hnodup : (files.map (·.path)).Nodup) (hfd : fd ∈ files) (hg : g ∈ files)
    (hp : fd.path = g.path) : fd = g := by
  have h1 := assocLookup_of_mem files fd hnodup hfd
  have h2 := assocLookup_of_mem files g hnodup hg
  rw [hp] at h1
  rw [h1] at h2
  cases h2
  rfl

/-- The pair `cache_matches` contributes to the matched map for one file. -/
def mkPair (fd : FileData) : Option (String × FileInfo) :=
  match fd.data_type with
  | some dt =>
    if fd.status = .MATCHED ∨ fd.status = .MANUAL then
      some (fd.path, mkFileInfo fd dt)
    else none
  | none => none

/-- With pairwise-distinct paths, the matched map built by `cache_matches` is
the plain filtered association list. -/
theorem mkMatched_eq (files : List FileData)
    (m : List (String × FileInfo)) (a : List (String × String))
    (hfresh : ∀ fd ∈ files, fd.path ∉ m.map (·.1))
    (hnodup : (files.map (·.path)).Nodup) :
    (files.foldl
      (fun acc fd =>
        match fd.data_type with
        | some dt =>
          if fd.status = .MATCHED ∨ fd.status = .MANUAL then
            (dictInsert fd.path (mkFileInfo fd dt) acc.1,
             if fd.status = .MANUAL then dictInsert fd.path dt.value acc.2 else acc.2)
          else acc
        | none => acc) (m, a)).1 = m ++ files.filterMap mkPair := by
  induction files generalizing m a with
  | nil => simp
  | cons fd rest ih =>
    simp only [List.map_cons, List.nodup_cons] at hnodup
    simp only [List.foldl_cons, List.filterMap_cons]
    have hfd := hfresh fd (List.mem_cons_self _ _)
    have hfresh' : ∀ g ∈ rest, g.path ∉ m.map (·.1) :=
      fun g hg => hfresh g (List.mem_cons_of_mem _ hg)
    rcases hdt : fd.data_type with _ | dt
    · simp only [mkPair, hdt]
      rw [ih m a hfresh' hnodup.2]
    · by_cases hst : fd.status = .MATCHED ∨ fd.status = .MANUAL
      · simp only [mkPair, hdt, if_pos hst]
        rw [ih (dictInsert fd.path (mkFileInfo fd dt) m) _ ?_ hnodup.2]
        · rw [dictInsert_fresh _ _ _ hfd]
          simp
        · intro g hg
          rw [dictInsert_fresh _ _ _ hfd]
          simp only [List.map_append, List.mem_append, List.map_cons, List.map_nil,
            List.mem_singleton]
          push_neg
          refine ⟨hfresh g (List.mem_cons_of_mem _ hg), fun hc => ?_⟩
          exact hnodup.1 (by rw [← hc]; exact List.mem_map_of_mem _ hg)
      · simp only [mkPair, hdt, if_neg hst]
        rw [ih m a hfresh' hnodup.2]

/-- `mkCacheEntry`'s matched map, in closed form under distinct paths. -/
theorem mkCacheEntry_matched (now : ℚ) (sr : StatResult) (pd : PatientData)
    (hnodup : (pd.get_all_files.map (·.path)).Nodup) :
    (mkCacheEntry now sr pd).matched_files = pd.get_all_files.filterMap mkPair := by
  show (mkMatchedAndManual pd.get_all_files).1 = _
  unfold mkMatchedAndManual
  exact mkMatched_eq _ [] [] (by simp) hnodup

/-- The value-level update `applyMatchedStep` performs on a found object. -/
def restoreFd (fd : FileData) (info : FileInfo) (dt : DataType)
    (ms : MatchStatus) : FileData :=
  { fd with data_type := some dt, confidence := info.confidence.getD (mkRat 4 5),
            status := ms, metadata := dictUpdate fd.metadata (info.metadata.getD []) }

/-- The value-level update of the unmatched and new-files passes. -/
def wipeFd (fd : FileData) : FileData :=
  { fd with status := .UNMATCHED, data_type := none, confidence := 0 }

theorem wipeFd_idem (fd : FileData) : wipeFd (wipeFd fd) = wipeFd fd := rfl

theorem dataType_fromValue_value (dt : DataType) :
    DataType.fromValue dt.value = some dt := by cases dt <;> rfl

theorem matchStatus_fromValue_value (ms : MatchStatus) :
    MatchStatus.fromValue ms.value = some ms := by cases ms <;> rfl

/-- Restoring a file from the info `cache_matches` wrote for it reproduces the
file exactly, provided its metadata dict has no duplicate key trouble (empty
metadata, which classification always produces, suffices). -/
theorem restoreFd_roundtrip (fd : FileData) (dt : DataType) (ms : MatchStatus)
    (hdt : fd.data_type = some dt) (hms : fd.status = ms)
    (hmd : fd.metadata = []) :
    restoreFd fd (mkFileInfo fd dt) dt ms = fd := by
  unfold restoreFd mkFileInfo
  cases fd
  simp_all [dictUpdate]

theorem assignToStructure_store (st : ApplyState) (p : String) (dt : Option DataType) :
    (assignToStructure st p dt).store = st.store := by
  unfold assignToStructure
  rcases dt with _ | dt
  · rfl
  · cases dt <;> rfl

theorem assignToStructure_unmatched_mono (st : ApplyState) (p q : String)
    (dt : Option DataType) (h : q ∈ st.unmatched) :
    q ∈ (assignToStructure st p dt).unmatched := by
  unfold assignToStructure
  rcases dt with _ | dt
  · simp [h]
  · cases dt <;> simp [h]

theorem assignToStructure_cbct_mono (st : ApplyState) (p q : String)
    (dt : Option DataType) (h : q ∈ st.cbct) :
    q ∈ (assignToStructure st p dt).cbct := by
  unfold assignToStructure
  rcases dt with _ | dt
  · simp [h]
  · cases dt <;> simp [h]

theorem assignToStructure_photos_mono (st : ApplyState) (p q : String)
    (dt : Option DataType) (h : q ∈ st.photos) :
    q ∈ (assignToStructure st p dt).photos := by
  unfold assignToStructure
  rcases dt with _ | dt
  · simp [h]
  · cases dt <;> simp [h]

theorem applyMatchedStep_store_frame (st : ApplyState) (x : String × FileInfo)
    (p : String) (h : x.1 ≠ p) :
    dictLookup p (applyMatchedStep st x).store = dictLookup p st.store := by
  unfold applyMatchedStep
  rcases h1 : dictLookup x.1 st.store with _ | fd
  · rfl
  · rcases h2 : DataType.fromValue x.2.data_type with _ | dt
    · rfl
    · rcases h3 : MatchStatus.fromValue (x.2.status.getD "matched") with _ | ms
      · exact dictLookup_insert_ne _ _ _ _ h
      · rw [assignToStructure_store]
        exact dictLookup_insert_ne _ _ _ _ h

theorem applyMatchedStep_unmatched_mono (st : ApplyState) (x : String × FileInfo)
    (q : String) (h : q ∈ st.unmatched) :
    q ∈ (applyMatchedStep st x).unmatched := by
  unfold applyMatchedStep
  rcases h1 : dictLookup x.1 st.store with _ | fd
  · exact h
  · rcases h2 : DataType.fromValue x.2.data_type with _ | dt
    · simp [h]
    · rcases h3 : MatchStatus.fromValue (x.2.status.getD "matched") with _ | ms
      · simp [h]
      · exact assignToStructure_unmatched_mono _ _ _ _ h

theorem applyMatchedStep_cbct_mono (st : ApplyState) (x : String × FileInfo)
    (q : String) (h : q ∈ st.cbct) :
    q ∈ (applyMatchedStep st x).cbct := by
  unfold applyMatchedStep
  rcases h1 : dictLookup x.1 st.store with _ | fd
  · exact h
  · rcases h2 : DataType.fromValue x.2.data_type with _ | dt
    · exact h
    · rcases h3 : MatchStatus.fromValue (x.2.status.getD "matched") with _ | ms
      · exact h
      · exact assignToStructure_cbct_mono _ _ _ _ h

theorem applyMatchedStep_photos_mono (st : ApplyState) (x : String × FileInfo)
    (q : String) (h : q ∈ st.photos) :
    q ∈ (applyMatchedStep st x).photos := by
  unfold applyMatchedStep
  rcases h1 : dictLookup x.1 st.store with _ | fd
  · exact h
  · rcases h2 : DataType.fromValue x.2.data_type with _ | dt
    · exact h
    · rcases h3 : MatchStatus.fromValue (x.2.status.getD "matched") with _ | ms
      · exact h
      · exact assignToStructure_photos_mono _ _ _ _ h

theorem foldMatched_store_frame (M : List (String × FileInfo)) (st : ApplyState)
    (p : String) (h : p ∉ M.map (·.1)) :
    dictLookup p (M.foldl applyMatchedStep st).store = dictLookup p st.store := by
  induction M generalizing st with
  | nil => rfl
  | cons x rest ih =>
    simp only [List.map_cons, List.mem_cons] at h
    push_neg at h
    rw [List.foldl_cons, ih _ h.2, applyMatchedStep_store_frame _ _ _ (fun hc => h.1 hc.symm)]

theorem foldMatched_unmatched_mono (M : List (String × FileInfo)) (st : ApplyState)
    (q : String) (h : q ∈ st.unmatched) :
    q ∈ (M.foldl applyMatchedStep st).unmatched := by
  induction M generalizing st with
  | nil => exact h
  | cons x rest ih => exact ih _ (applyMatchedStep_unmatched_mono _ _ _ h)

theorem foldMatched_cbct_mono (M : List (String × FileInfo)) (st : ApplyState)
    (q : String) (h : q ∈ st.cbct) :
    q ∈ (M.foldl applyMatchedStep st).cbct := by
  induction M generalizing st with
  | nil => exact h
  | cons x rest ih => exact ih _ (applyMatchedStep_cbct_mono _ _ _ h)

theorem foldMatched_photos_mono (M : List (String × FileInfo)) (st : ApplyState)
    (q : String) (h : q ∈ st.photos) :
    q ∈ (M.foldl applyMatchedStep st).photos := by
  induction M generalizing st with
  | nil => exact h
  | cons x rest ih => exact ih _ (applyMatchedStep_photos_mono _ _ _ h)

theorem dictInsert_lookup_id {α : Type} (k : String) (v : α) (d : List (String × α))
    (h : dictLookup k d = some v) : dictInsert k v d = d := by
  induction d with
  | nil => cases h
  | cons kv rest ih =>
    by_cases hk : kv.1 = k
    · simp only [dictLookup, if_pos hk] at h
      cases h
      obtain ⟨k', v'⟩ := kv
      simp only at hk
      simp [dictInsert, hk]
    · simp only [dictLookup, if_neg hk] at h
      obtain ⟨k', v'⟩ := kv
      simp only at hk
      simp [dictInsert, hk, ih h]

/-- A matched-map iteration whose path resolves and whose stored type and
status strings parse: the object is updated to `restoreFd` and routed by the
parsed type. -/
theorem applyMatchedStep_found (st : ApplyState) (p : String) (info : FileInfo)
    (fd : FileData) (dt : DataType) (ms : MatchStatus)
    (hlook : dictLookup p st.store = some fd)
    (hdt : DataType.fromValue info.data_type = some dt)
    (hms : MatchStatus.fromValue (info.status.getD "matched") = some ms) :
    applyMatchedStep st (p, info) =
      assignToStructure
        { st with store := dictInsert p (restoreFd fd info dt ms) st.store }
        p (some dt) := by
  simp only [applyMatchedStep, hlook, hdt, hms, restoreFd]

/-- A matched-map iteration over the pair `cache_matches` wrote for a file the
walk re-found unchanged restores the file verbatim and routes it by its type. -/
theorem applyMatchedStep_good (st : ApplyState) (fd : FileData) (dt : DataType)
    (hdt : fd.data_type = some dt) (hmd : fd.metadata = [])
    (hlook : dictLookup fd.path st.store = some fd) :
    applyMatchedStep st (fd.path, mkFileInfo fd dt) =
      assignToStructure st fd.path (some dt) := by
  rw [applyMatchedStep_found st fd.path (mkFileInfo fd dt) fd dt fd.status hlook
      (by simp [mkFileInfo, dataType_fromValue_value])
      (by simp [mkFileInfo, matchStatus_fromValue_value]),
    restoreFd_roundtrip fd dt fd.status hdt rfl hmd,
    dictInsert_lookup_id _ _ _ hlook]

/-- **C4** (corrected).  The EXCLUDE routing of the two restore paths: a cached
entry whose stored `data_type` string is `"exclude"` is restored (type EXCLUDE,
cached confidence/status/metadata applied) but routed to `unmatched_files` by
`_assign_file_to_patient_structure`, which has no EXCLUDE case; and a file
reassigned to EXCLUDE is routed by `_add_file_to_patient` on its extension
alone — `.dcm`/`.dicom` to `cbct_files`, `.stl` to `unmatched_files`,
`.jpg`/`.jpeg`/`.png`/`.bmp` to `intraoral_photos`, anything else to
`unmatched_files` — not kept in its prior structural location. -/
theorem C4_exclude_routing_amended (st : ApplyState) (p : String) (info : FileInfo)
    (fd : FileData) (ms : MatchStatus) (pd : PatientData) (g : FileData)
    (hlook : dictLookup p st.store = some fd)
    (hdt : info.data_type = "exclude")
    (hms : MatchStatus.fromValue (info.status.getD "matched") = some ms)
    (hg : g.data_type = some .EXCLUDE) :
    applyMatchedStep st (p, info) =
      { st with store := dictInsert p (restoreFd fd info .EXCLUDE ms) st.store,
                unmatched := st.unmatched ++ [p] } ∧
    ((strEndsWith (strLower g.path) ".dcm" = true ∨
        strEndsWith (strLower g.path) ".dicom" = true →
      add_file_to_patient pd g = { pd with cbct_files := pd.cbct_files ++ [g] }) ∧
     (strEndsWith (strLower g.path) ".dcm" = false →
      strEndsWith (strLower g.path) ".dicom" = false →
      strEndsWith (strLower g.path) ".stl" = true →
      add_file_to_patient pd g =
        { pd with unmatched_files := pd.unmatched_files ++ [g] }) ∧
     (strEndsWith (strLower g.path) ".dcm" = false →
      strEndsWith (strLower g.path) ".dicom" = false →
      strEndsWith (strLower g.path) ".stl" = false →
      strEndsWith (strLower g.path) ".jpg" = true ∨
        strEndsWith (strLower g.path) ".jpeg" = true ∨
        strEndsWith (strLower g.path) ".png" = true ∨
        strEndsWith (strLower g.path) ".bmp" = true →
      add_file_to_patient pd g =
        { pd with intraoral_photos := pd.intraoral_photos ++ [g] }) ∧
     (strEndsWith (strLower g.path) ".dcm" = false →
      strEndsWith (strLower g.path) ".dicom" = false →
      strEndsWith (strLower g.path) ".stl" = false →
      strEndsWith (strLower g.path) ".jpg" = false →
      strEndsWith (strLower g.path) ".jpeg" = false →
      strEndsWith (strLower g.path) ".png" = false →
      strEndsWith (strLower g.path) ".bmp" = false →
      add_file_to_patient pd g =
        { pd with unmatched_files := pd.unmatched_files ++ [g] })) := by
  constructor
  · rw [applyMatchedStep_found st p info fd .EXCLUDE ms hlook (by rw [hdt]; rfl) hms]
    rfl
  · refine ⟨?_, ?_, ?_, ?_⟩
    · intro h
      simp only [add_file_to_patient, hg]
      rw [if_pos (by simpa using h)]
    · intro h1 h2 h3
      simp only [add_file_to_patient, hg]
      rw [if_neg (by simp [h1, h2]), if_pos (by simp [h3])]
    · intro h1 h2 h3 h4
      simp only [add_file_to_patient, hg]
      rw [if_neg (by simp [h1, h2]), if_neg (by simp [h3]),
        if_pos (by simpa using h4)]
    · intro h1 h2 h3 h4 h5 h6 h7
      simp only [add_file_to_patient, hg]
      rw [if_neg (by simp [h1, h2]), if_neg (by simp [h3]),
        if_neg (by simp [h4, h5, h6, h7])]

/-- A stored object for the C4 cache-restore scenario. -/
def c4fd : FileData := { path := "/r/x/scan.stl" }

/-- The one-object store for the C4 cache-restore scenario. -/
def c4st : ApplyState := { store := [("/r/x/scan.stl", c4fd)] }

/-- A cached file-info dict with `data_type` `"exclude"`. -/
def c4info : FileInfo := { data_type := "exclude" }

/-- A file manually reassigned to EXCLUDE (an `.stl`). -/
def c4g : FileData :=
  { path := "/r/pA/model.stl", data_type := some .EXCLUDE, confidence := 1,
    status := .MANUAL }

/-- A bare patient record for the C4 reassignment scenario. -/
def c4pd : PatientData := { patient_id := "pA", folder_path := "/r/pA" }

theorem C4_witness :
    (dictLookup "/r/x/scan.stl" c4st.store = some c4fd ∧
     c4info.data_type = "exclude" ∧
     MatchStatus.fromValue (c4info.status.getD "matched") = some .MATCHED ∧
     c4g.data_type = some .EXCLUDE) ∧
    (applyMatchedStep c4st ("/r/x/scan.stl", c4info) =
      { c4st with
          store := dictInsert "/r/x/scan.stl"
            (restoreFd c4fd c4info .EXCLUDE .MATCHED) c4st.store,
          unmatched := c4st.unmatched ++ ["/r/x/scan.stl"] } ∧
     ((strEndsWith (strLower c4g.path) ".dcm" = true ∨
         strEndsWith (strLower c4g.path) ".dicom" = true →
       add_file_to_patient c4pd c4g =
         { c4pd with cbct_files := c4pd.cbct_files ++ [c4g] }) ∧
      (strEndsWith (strLower c4g.path) ".dcm" = false →
       strEndsWith (strLower c4g.path) ".dicom" = false →
       strEndsWith (strLower c4g.path) ".stl" = true →
       add_file_to_patient c4pd c4g =
         { c4pd with unmatched_files := c4pd.unmatched_files ++ [c4g] }) ∧
      (strEndsWith (strLower c4g.path) ".dcm" = false →
       strEndsWith (strLower c4g.path) ".dicom" = false →
       strEndsWith (strLower c4g.path) ".stl" = false →
       strEndsWith (strLower c4g.path) ".jpg" = true ∨
         strEndsWith (strLower c4g.path) ".jpeg" = true ∨
         strEndsWith (strLower c4g.path) ".png" = true ∨
         strEndsWith (strLower c4g.path) ".bmp" = true →
       add_file_to_patient c4pd c4g =
         { c4pd with intraoral_photos := c4pd.intraoral_photos ++ [c4g] }) ∧
      (strEndsWith (strLower c4g.path) ".dcm" = false →
       strEndsWith (strLower c4g.path) ".dicom" = false →
       strEndsWith (strLower c4g.path) ".stl" = false →
       strEndsWith (strLower c4g.path) ".jpg" = false →
       strEndsWith (strLower c4g.path) ".jpeg" = false →
       strEndsWith (strLower c4g.path) ".png" = false →
       strEndsWith (strLower c4g.path) ".bmp" = false →
       add_file_to_patient c4pd c4g =
         { c4pd with unmatched_files := c4pd.unmatched_files ++ [c4g] }))) :=
  ⟨⟨by decide, rfl, rfl, rfl⟩,
   C4_exclude_routing_amended c4st "/r/x/scan.stl" c4info c4fd .MATCHED c4pd c4g
     (by decide) rfl rfl rfl⟩

/- ### C2 — round-trip machinery -/

/-- A file record as classification leaves it in a typed container: the
container's type, a `MATCHED`/`MANUAL` status, and empty metadata. -/
def goodFile (fd : FileData) (dt : DataType) : Bool :=
  decide (fd.data_type = some dt) &&
    (decide (fd.status = MatchStatus.MATCHED) ||
     decide (fd.status = MatchStatus.MANUAL)) &&
    decide (fd.metadata = [])

/-- Well-formedness of an optional singleton slot of fixed type. -/
def slotWF (x : Option FileData) (dt : DataType) : Bool :=
  match x with
  | some fd => goodFile fd dt
  | none => true

/-- Well-formedness of the `ios_upper` slot: either a properly matched
`IOS_UPPER` file, or the untyped `AMBIGUOUS` occupant `_analyze_ios_folder`
produces for a single keyword-free scan. -/
def upperWF (x : Option FileData) : Bool :=
  match x with
  | some fd =>
    goodFile fd .IOS_UPPER ||
      (decide (fd.data_type = none) && decide (fd.status = MatchStatus.AMBIGUOUS))
  | none => true

/-- The shape classification gives a `PatientData`: every typed container holds
files of its own type with status `MATCHED`/`MANUAL` and empty metadata
(`ios_upper` alternatively its ambiguous occupant), and `unmatched_files`
holds only `UNMATCHED`/`AMBIGUOUS` files. -/
def WFClassified (pd : PatientData) : Bool :=
  pd.cbct_files.all (goodFile · .CBCT_DICOM) &&
  upperWF pd.ios_upper &&
  slotWF pd.ios_lower .IOS_LOWER &&
  pd.intraoral_photos.all (goodFile · .INTRAORAL_PHOTO) &&
  slotWF pd.teleradiography .TELERADIOGRAPHY &&
  slotWF pd.orthopantomography .ORTHOPANTOMOGRAPHY &&
  pd.unmatched_files.all fun fd =>
    decide (fd.status = MatchStatus.UNMATCHED) ||
      decide (fd.status = MatchStatus.AMBIGUOUS)

theorem goodFile_spec (fd : FileData) (dt : DataType) (h : goodFile fd dt = true) :
    fd.data_type = some dt ∧
      (fd.status = MatchStatus.MATCHED ∨ fd.status = MatchStatus.MANUAL) ∧
      fd.metadata = [] := by
  simp only [goodFile, Bool.and_eq_true, Bool.or_eq_true, decide_eq_true_eq] at h
  exact ⟨h.1.1, h.1.2, h.2⟩

theorem mkPair_good (fd : FileData) (dt : DataType) (h : goodFile fd dt = true) :
    mkPair fd = some (fd.path, mkFileInfo fd dt) := by
  obtain ⟨hdt, hst, -⟩ := goodFile_spec fd dt h
  simp [mkPair, hdt, hst]

theorem mkPair_none_of_status (fd : FileData)
    (h : fd.status = MatchStatus.UNMATCHED ∨ fd.status = MatchStatus.AMBIGUOUS) :
    mkPair fd = none := by
  unfold mkPair
  rcases hdt : fd.data_type with _ | dt
  · rfl
  · simp only []
    rw [if_neg]
    rcases h with h | h <;> rw [h] <;> rintro (hc | hc) <;> cases hc

theorem filterMap_mkPair_good (L : List FileData) (dt : DataType)
    (h : ∀ fd ∈ L, goodFile fd dt = true) :
    L.filterMap mkPair = L.map fun fd => (fd.path, mkFileInfo fd dt) := by
  induction L with
  | nil => rfl
  | cons fd rest ih =>
    rw [List.filterMap_cons, mkPair_good fd dt (h fd (List.mem_cons_self _ _)),
      List.map_cons, ih fun g hg => h g (List.mem_cons_of_mem _ hg)]

theorem filterMap_mkPair_unmatched (L : List FileData)
    (h : ∀ fd ∈ L,
      fd.status = MatchStatus.UNMATCHED ∨ fd.status = MatchStatus.AMBIGUOUS) :
    L.filterMap mkPair = [] := by
  induction L with
  | nil => rfl
  | cons fd rest ih =>
    rw [List.filterMap_cons, mkPair_none_of_status fd (h fd (List.mem_cons_self _ _)),
      ih fun g hg => h g (List.mem_cons_of_mem _ hg)]

/-- The reference a restored singleton slot ends up holding. -/
def slotRoute (x : Option FileData) (old : Option String) : Option String :=
  match x with
  | some fd => some fd.path
  | none => old

/-- The reference the restored `ios_upper` slot ends up holding: the occupant's
path when it was cached (status `MATCHED`/`MANUAL`), the previous reference
otherwise. -/
def upperRoute (x : Option FileData) (old : Option String) : Option String :=
  match x with
  | some fd =>
    if fd.status = MatchStatus.MATCHED ∨ fd.status = MatchStatus.MANUAL then
      some fd.path
    else old
  | none => old

theorem foldMatched_cbct_seg (L : List FileData) (st : ApplyState)
    (hwf : ∀ fd ∈ L, goodFile fd .CBCT_DICOM = true)
    (hlook : ∀ fd ∈ L, dictLookup fd.path st.store = some fd) :
    (L.filterMap mkPair).foldl applyMatchedStep st =
      { st with cbct := st.cbct ++ L.map (·.path) } := by
  induction L generalizing st with
  | nil => simp
  | cons fd rest ih =>
    obtain ⟨hdt, -, hmd⟩ := goodFile_spec fd _ (hwf fd (List.mem_cons_self _ _))
    rw [List.filterMap_cons, mkPair_good fd _ (hwf fd (List.mem_cons_self _ _)),
      List.foldl_cons,
      applyMatchedStep_good st fd _ hdt hmd (hlook fd (List.mem_cons_self _ _)),
      show assignToStructure st fd.path (some .CBCT_DICOM) =
        { st with cbct := st.cbct ++ [fd.path] } from rfl,
      ih { st with cbct := st.cbct ++ [fd.path] }
        (fun g hg => hwf g (List.mem_cons_of_mem _ hg))
        (fun g hg => hlook g (List.mem_cons_of_mem _ hg))]
    simp

theorem foldMatched_photos_seg (L : List FileData) (st : ApplyState)
    (hwf : ∀ fd ∈ L, goodFile fd .INTRAORAL_PHOTO = true)
    (hlook : ∀ fd ∈ L, dictLookup fd.path st.store = some fd) :
    (L.filterMap mkPair).foldl applyMatchedStep st =
      { st with photos := st.photos ++ L.map (·.path) } := by
  induction L generalizing st with
  | nil => simp
  | cons fd rest ih =>
    obtain ⟨hdt, -, hmd⟩ := goodFile_spec fd _ (hwf fd (List.mem_cons_self _ _))
    rw [List.filterMap_cons, mkPair_good fd _ (hwf fd (List.mem_cons_self _ _)),
      List.foldl_cons,
      applyMatchedStep_good st fd _ hdt hmd (hlook fd (List.mem_cons_self _ _)),
      show assignToStructure st fd.path (some .INTRAORAL_PHOTO) =
        { st with photos := st.photos ++ [fd.path] } from rfl,
      ih { st with photos := st.photos ++ [fd.path] }
        (fun g hg => hwf g (List.mem_cons_of_mem _ hg))
        (fun g hg => hlook g (List.mem_cons_of_mem _ hg))]
    simp

theorem foldMatched_iosL_seg (x : Option FileData) (st : ApplyState)
    (hwf : slotWF x .IOS_LOWER = true)
    (hlook : ∀ fd, x = some fd → dictLookup fd.path st.store = some fd) :
    ((optSlot x).filterMap mkPair).foldl applyMatchedStep st =
      { st with iosL := slotRoute x st.iosL } := by
  rcases x with _ | fd
  · rfl
  · obtain ⟨hdt, -, hmd⟩ := goodFile_spec fd _ hwf
    rw [show (optSlot (some fd)).filterMap mkPair =
        [(fd.path, mkFileInfo fd .IOS_LOWER)] by
      simp [optSlot, List.filterMap_cons, mkPair_good fd _ hwf]]
    rw [List.foldl_cons, List.foldl_nil,
      applyMatchedStep_good st fd _ hdt hmd (hlook fd rfl)]
    rfl

theorem foldMatched_tele_seg (x : Option FileData) (st : ApplyState)
    (hwf : slotWF x .TELERADIOGRAPHY = true)
    (hlook : ∀ fd, x = some fd → dictLookup fd.path st.store = some fd) :
    ((optSlot x).filterMap mkPair).foldl applyMatchedStep st =
      { st with tele := slotRoute x st.tele } := by
  rcases x with _ | fd
  · rfl
  · obtain ⟨hdt, -, hmd⟩ := goodFile_spec fd _ hwf
    rw [show (optSlot (some fd)).filterMap mkPair =
        [(fd.path, mkFileInfo fd .TELERADIOGRAPHY)] by
      simp [optSlot, List.filterMap_cons, mkPair_good fd _ hwf]]
    rw [List.foldl_cons, List.foldl_nil,
      applyMatchedStep_good st fd _ hdt hmd (hlook fd rfl)]
    rfl

theorem foldMatched_ortho_seg (x : Option FileData) (st : ApplyState)
    (hwf : slotWF x .ORTHOPANTOMOGRAPHY = true)
    (hlook : ∀ fd, x = some fd → dictLookup fd.path st.store = some fd) :
    ((optSlot x).filterMap mkPair).foldl applyMatchedStep st =
      { st with ortho := slotRoute x st.ortho } := by
  rcases x with _ | fd
  · rfl
  · obtain ⟨hdt, -, hmd⟩ := goodFile_spec fd _ hwf
    rw [show (optSlot (some fd)).filterMap mkPair =
        [(fd.path, mkFileInfo fd .ORTHOPANTOMOGRAPHY)] by
      simp [optSlot, List.filterMap_cons, mkPair_good fd _ hwf]]
    rw [List.foldl_cons, List.foldl_nil,
      applyMatchedStep_good st fd _ hdt hmd (hlook fd rfl)]
    rfl

theorem foldMatched_upper_seg (x : Option FileData) (st : ApplyState)
    (hwf : upperWF x = true)
    (hlook : ∀ fd, x = some fd → dictLookup fd.path st.store = some fd) :
    ((optSlot x).filterMap mkPair).foldl applyMatchedStep st =
      { st with iosU := upperRoute x st.iosU } := by
  rcases x with _ | fd
  · rfl
  · simp only [upperWF, Bool.or_eq_true] at hwf
    rcases hwf with hwf | hwf
    · obtain ⟨hdt, hst, hmd⟩ := goodFile_spec fd _ hwf
      rw [show (optSlot (some fd)).filterMap mkPair =
          [(fd.path, mkFileInfo fd .IOS_UPPER)] by
        simp [optSlot, List.filterMap_cons, mkPair_good fd _ hwf]]
      rw [List.foldl_cons, List.foldl_nil,
        applyMatchedStep_good st fd _ hdt hmd (hlook fd rfl)]
      simp only [upperRoute, if_pos hst]
      rfl
    · simp only [Bool.and_eq_true, decide_eq_true_eq] at hwf
      rw [show (optSlot (some fd)).filterMap mkPair = [] by
        simp [optSlot, List.filterMap_cons, mkPair, hwf.1]]
      simp only [List.foldl_nil, upperRoute, hwf.2]
      rw [if_neg (by rintro (hc | hc) <;> cases hc)]

theorem isSome_dictInsert {α : Type} (p q : String) (v : α) (d : List (String × α))
    (h : (dictLookup q d).isSome = true) :
    (dictLookup q (dictInsert p v d)).isSome = true := by
  by_cases hpq : p = q
  · subst hpq
    rw [dictLookup_insert_self]
    rfl
  · rw [dictLookup_insert_ne _ _ _ _ hpq]
    exact h

theorem applyUnmatchedStep_lookup_ne (st : ApplyState) (q p : String) (h : q ≠ p) :
    dictLookup p (applyUnmatchedStep st q).store = dictLookup p st.store := by
  unfold applyUnmatchedStep
  rcases hq : dictLookup q st.store with _ | fd
  · rfl
  · exact dictLookup_insert_ne _ _ _ _ h

theorem foldU_frame_lookup (ps : List String) (st : ApplyState) (p : String)
    (h : p ∉ ps) :
    dictLookup p (ps.foldl applyUnmatchedStep st).store = dictLookup p st.store := by
  induction ps generalizing st with
  | nil => rfl
  | cons q rest ih =>
    simp only [List.mem_cons] at h
    push_neg at h
    rw [List.foldl_cons, ih _ h.2,
      applyUnmatchedStep_lookup_ne _ _ _ fun hc => h.1 hc.symm]

theorem foldU_wipes (ps : List String) (st : ApplyState) (p : String) (fd : FileData)
    (hmem : p ∈ ps) (hlook : dictLookup p st.store = some fd) :
    dictLookup p (ps.foldl applyUnmatchedStep st).store = some (wipeFd fd) := by
  induction ps generalizing st fd with
  | nil => cases hmem
  | cons q rest ih =>
    rw [List.foldl_cons]
    by_cases hpq : q = p
    · subst hpq
      have hstep : dictLookup q (applyUnmatchedStep st q).store = some (wipeFd fd) := by
        simp only [applyUnmatchedStep, hlook]
        exact dictLookup_insert_self _ _ _
      by_cases hrest : q ∈ rest
      · rw [ih _ _ hrest hstep, wipeFd_idem]
      · rw [foldU_frame_lookup _ _ _ hrest, hstep]
    · rcases List.mem_cons.mp hmem with hc | hc
      · exact absurd hc.symm hpq
      · exact ih _ _ hc (by rw [applyUnmatchedStep_lookup_ne _ _ _ hpq, hlook])

theorem foldU_routes (ps : List String) (st : ApplyState)
    (hsome : ∀ p ∈ ps, (dictLookup p st.store).isSome = true) :
    (ps.foldl applyUnmatchedStep st).cbct = st.cbct ∧
    (ps.foldl applyUnmatchedStep st).iosU = st.iosU ∧
    (ps.foldl applyUnmatchedStep st).iosL = st.iosL ∧
    (ps.foldl applyUnmatchedStep st).photos = st.photos ∧
    (ps.foldl applyUnmatchedStep st).tele = st.tele ∧
    (ps.foldl applyUnmatchedStep st).ortho = st.ortho ∧
    (ps.foldl applyUnmatchedStep st).unmatched = st.unmatched ++ ps := by
  induction ps generalizing st with
  | nil => simp
  | cons p rest ih =>
    obtain ⟨fd, hfd⟩ := Option.isSome_iff_exists.mp (hsome p (List.mem_cons_self _ _))
    rw [List.foldl_cons]
    have hstep : applyUnmatchedStep st p =
        { st with
          store := dictInsert p (wipeFd fd) st.store,
          unmatched := st.unmatched ++ [p] } := by
      simp only [applyUnmatchedStep, hfd]
      rfl
    rw [hstep]
    have := ih { st with
        store := dictInsert p (wipeFd fd) st.store,
        unmatched := st.unmatched ++ [p] }
      (fun q hq =>
        isSome_dictInsert _ _ _ _ (hsome q (List.mem_cons_of_mem _ hq)))
    simp only at this
    refine ⟨this.1, this.2.1, this.2.2.1, this.2.2.2.1, this.2.2.2.2.1,
      this.2.2.2.2.2.1, ?_⟩
    rw [this.2.2.2.2.2.2]
    simp

theorem applyNewStep_lookup_ne (cached : List String) (st : ApplyState)
    (q p : String) (h : q ≠ p) :
    dictLookup p (applyNewStep cached st q).store = dictLookup p st.store := by
  unfold applyNewStep
  by_cases hc : q ∈ cached
  · rw [if_pos hc]
  · rw [if_neg hc]
    rcases hq : dictLookup q st.store with _ | fd
    · rfl
    · exact dictLookup_insert_ne _ _ _ _ h

theorem foldNew_frame_lookup (cached keys : List String) (st : ApplyState)
    (p : String) (h : p ∉ keys) :
    dictLookup p (keys.foldl (applyNewStep cached) st).store =
      dictLookup p st.store := by
  induction keys generalizing st with
  | nil => rfl
  | cons q rest ih =>
    simp only [List.mem_cons] at h
    push_neg at h
    rw [List.foldl_cons, ih _ h.2,
      applyNewStep_lookup_ne _ _ _ _ fun hc => h.1 hc.symm]

theorem foldNew_lookup_cached (cached keys : List String) (st : ApplyState)
    (p : String) (h : p ∈ cached) :
    dictLookup p (keys.foldl (applyNewStep cached) st).store =
      dictLookup p st.store := by
  induction keys generalizing st with
  | nil => rfl
  | cons q rest ih =>
    rw [List.foldl_cons]
    by_cases hpq : q = p
    · subst hpq
      rw [ih _, show applyNewStep cached st q = st by
        unfold applyNewStep; rw [if_pos h]]
    · rw [ih _, applyNewStep_lookup_ne _ _ _ _ hpq]

theorem foldNew_wipes (cached keys : List String) (st : ApplyState) (p : String)
    (fd : FileData) (hmem : p ∈ keys) (hnc : p ∉ cached)
    (hlook : dictLookup p st.store = some fd) :
    dictLookup p (keys.foldl (applyNewStep cached) st).store =
      some (wipeFd fd) := by
  induction keys generalizing st fd with
  | nil => cases hmem
  | cons q rest ih =>
    rw [List.foldl_cons]
    by_cases hpq : q = p
    · subst hpq
      have hstep : dictLookup q (applyNewStep cached st q).store =
          some (wipeFd fd) := by
        simp only [applyNewStep, if_neg hnc, hlook]
        exact dictLookup_insert_self _ _ _
      by_cases hrest : q ∈ rest
      · rw [ih _ _ hrest hstep, wipeFd_idem]
      · rw [foldNew_frame_lookup _ _ _ _ hrest, hstep]
    · rcases List.mem_cons.mp hmem with hc | hc
      · exact absurd hc.symm hpq
      · exact ih _ _ hc (by rw [applyNewStep_lookup_ne _ _ _ _ hpq, hlook])

theorem foldNew_routes (cached keys : List String) (st : ApplyState)
    (hsome : ∀ p ∈ keys, (dictLookup p st.store).isSome = true) :
    (keys.foldl (applyNewStep cached) st).cbct = st.cbct ∧
    (keys.foldl (applyNewStep cached) st).iosU = st.iosU ∧
    (keys.foldl (applyNewStep cached) st).iosL = st.iosL ∧
    (keys.foldl (applyNewStep cached) st).photos = st.photos ∧
    (keys.foldl (applyNewStep cached) st).tele = st.tele ∧
    (keys.foldl (applyNewStep cached) st).ortho = st.ortho ∧
    (keys.foldl (applyNewStep cached) st).unmatched =
      st.unmatched ++ keys.filter fun p => decide (p ∉ cached) := by
  induction keys generalizing st with
  | nil => simp
  | cons p rest ih =>
    rw [List.foldl_cons]
    by_cases hc : p ∈ cached
    · have hstep : applyNewStep cached st p = st := by
        unfold applyNewStep; rw [if_pos hc]
      rw [hstep, List.filter_cons_of_neg (by simp [hc])]
      exact ih st fun q hq => hsome q (List.mem_cons_of_mem _ hq)
    · obtain ⟨fd, hfd⟩ :=
        Option.isSome_iff_exists.mp (hsome p (List.mem_cons_self _ _))
      have hstep : applyNewStep cached st p =
          { st with
            store := dictInsert p (wipeFd fd) st.store,
            unmatched := st.unmatched ++ [p] } := by
        simp only [applyNewStep, if_neg hc, hfd]
        rfl
      rw [hstep, List.filter_cons_of_pos (by simp [hc])]
      have := ih { st with
          store := dictInsert p (wipeFd fd) st.store,
          unmatched := st.unmatched ++ [p] }
        (fun q hq =>
          isSome_dictInsert _ _ _ _ (hsome q (List.mem_cons_of_mem _ hq)))
      simp only at this
      refine ⟨this.1, this.2.1, this.2.2.1, this.2.2.2.1, this.2.2.2.2.1,
        this.2.2.2.2.2.1, ?_⟩
      rw [this.2.2.2.2.2.2]
      simp

theorem resolveRefs_map (store : List (String × FileData)) (L : List FileData)
    (g : FileData → FileData)
    (h : ∀ fd ∈ L, dictLookup fd.path store = some (g fd)) :
    resolveRefs store (L.map (·.path)) = L.map g := by
  induction L with
  | nil => rfl
  | cons fd rest ih =>
    simp only [List.map_cons, resolveRefs, List.filterMap_cons,
      h fd (List.mem_cons_self _ _)]
    rw [show rest.map (·.path) = rest.map (·.path) from rfl]
    have := ih fun q hq => h q (List.mem_cons_of_mem _ hq)
    simp only [resolveRefs] at this
    rw [this]

theorem resolveRefs_append (store : List (String × FileData)) (a b : List String) :
    resolveRefs store (a ++ b) = resolveRefs store a ++ resolveRefs store b :=
  List.filterMap_append _ _ _

theorem mkPair_some_inv (g : FileData) (pr : String × FileInfo)
    (h : mkPair g = some pr) :
    pr.1 = g.path ∧
      (g.status = MatchStatus.MATCHED ∨ g.status = MatchStatus.MANUAL) := by
  unfold mkPair at h
  rcases hdt : g.data_type with _ | dt <;> rw [hdt] at h
  · cases h
  · simp only [] at h
    by_cases hst : g.status = MatchStatus.MATCHED ∨ g.status = MatchStatus.MANUAL
    · rw [if_pos hst] at h
      cases h
      exact ⟨rfl, hst⟩
    · rw [if_neg hst] at h
      cases h

theorem mem_mkPair_keys (F : List FileData) (fd : FileData) (dt : DataType)
    (hfd : fd ∈ F) (hgood : goodFile fd dt = true) :
    fd.path ∈ (F.filterMap mkPair).map (·.1) := by
  refine List.mem_map.mpr ⟨(fd.path, mkFileInfo fd dt), ?_, rfl⟩
  exact List.mem_filterMap.mpr ⟨fd, hfd, mkPair_good fd dt hgood⟩

theorem mkPair_keys_inv (F : List FileData) (q : String)
    (h : q ∈ (F.filterMap mkPair).map (·.1)) :
    ∃ g ∈ F, g.path = q ∧
      (g.status = MatchStatus.MATCHED ∨ g.status = MatchStatus.MANUAL) := by
  obtain ⟨pr, hpr, hq⟩ := List.mem_map.mp h
  obtain ⟨g, hg, hmk⟩ := List.mem_filterMap.mp hpr
  obtain ⟨hp, hst⟩ := mkPair_some_inv g pr hmk
  exact ⟨g, hg, by rw [← hq, hp], hst⟩

/-- The `ios_upper` value surviving a cache round-trip: kept when the occupant
was cached (`MATCHED`/`MANUAL`), dropped when it was the ambiguous occupant. -/
def uKeep (x : Option FileData) : Option FileData :=
  match x with
  | some fd =>
    if fd.status = MatchStatus.MATCHED ∨ fd.status = MatchStatus.MANUAL then
      some fd
    else none
  | none => none

/-- What the round-trip turns an ambiguous `ios_upper` occupant into: a wiped
record appended to `unmatched_files`. -/
def uLost (x : Option FileData) : List FileData :=
  match x with
  | some fd =>
    if fd.status = MatchStatus.MATCHED ∨ fd.status = MatchStatus.MANUAL then []
    else [wipeFd fd]
  | none => []

/-- Serializing a well-formed classification and applying the entry back onto
the same aggregate: every typed container is restored verbatim except the
ambiguous `ios_upper` occupant, which is wiped into `unmatched_files`, and the
previously unmatched files, which come back wiped. -/
theorem apply_cache_roundtrip (now : ℚ) (sr : StatResult) (P : PatientData)
    (hnodup : (P.get_all_files.map (·.path)).Nodup)
    (hwf : WFClassified P = true) :
    apply_cached_matches P (mkCacheEntry now sr P) =
      { P with
        ios_upper := uKeep P.ios_upper,
        unmatched_files := P.unmatched_files.map wipeFd ++ uLost P.ios_upper } := by
  simp only [WFClassified, Bool.and_eq_true, List.all_eq_true, Bool.or_eq_true,
    decide_eq_true_eq] at hwf
  obtain ⟨⟨⟨⟨⟨⟨hc, hu⟩, hl⟩, hph⟩, ht⟩, ho⟩, hum⟩ := hwf
  set S := P.get_all_files.map (fun fd => (fd.path, fd)) with hS
  set K := P.get_all_files.map (·.path) with hK0
  set U := P.unmatched_files.map (·.path) with hU0
  set C := (P.get_all_files.filterMap mkPair).map (·.1) ++ U with hC0
  set stA := (⟨S, P.cbct_files.map (·.path), upperRoute P.ios_upper none,
    slotRoute P.ios_lower none, P.intraoral_photos.map (·.path),
    slotRoute P.teleradiography none, slotRoute P.orthopantomography none,
    ([] : List String)⟩ : ApplyState) with hstA
  set st2 := U.foldl applyUnmatchedStep stA with hst2
  set st3 := K.foldl (applyNewStep C) st2 with hst3
  have hstA_store : stA.store = S := by rw [hstA]
  have hstA_cbct : stA.cbct = P.cbct_files.map (·.path) := by rw [hstA]
  have hstA_iosU : stA.iosU = upperRoute P.ios_upper none := by rw [hstA]
  have hstA_iosL : stA.iosL = slotRoute P.ios_lower none := by rw [hstA]
  have hstA_photos : stA.photos = P.intraoral_photos.map (·.path) := by rw [hstA]
  have hstA_tele : stA.tele = slotRoute P.teleradiography none := by rw [hstA]
  have hstA_ortho : stA.ortho = slotRoute P.orthopantomography none := by rw [hstA]
  have hstA_unmatched : stA.unmatched = [] := by rw [hstA]
  have hsubC : ∀ fd ∈ P.cbct_files, fd ∈ P.get_all_files := by
    intro fd h
    simp [PatientData.get_all_files, List.mem_append, h]
  have hsubU : ∀ fd, P.ios_upper = some fd → fd ∈ P.get_all_files := by
    intro fd h
    simp [PatientData.get_all_files, List.mem_append, h, optSlot]
  have hsubL : ∀ fd, P.ios_lower = some fd → fd ∈ P.get_all_files := by
    intro fd h
    simp [PatientData.get_all_files, List.mem_append, h, optSlot]
  have hsubPh : ∀ fd ∈ P.intraoral_photos, fd ∈ P.get_all_files := by
    intro fd h
    simp [PatientData.get_all_files, List.mem_append, h]
  have hsubT : ∀ fd, P.teleradiography = some fd → fd ∈ P.get_all_files := by
    intro fd h
    simp [PatientData.get_all_files, List.mem_append, h, optSlot]
  have hsubO : ∀ fd, P.orthopantomography = some fd → fd ∈ P.get_all_files := by
    intro fd h
    simp [PatientData.get_all_files, List.mem_append, h, optSlot]
  have hsubUm : ∀ fd ∈ P.unmatched_files, fd ∈ P.get_all_files := by
    intro fd h
    simp [PatientData.get_all_files, List.mem_append, h]
  have hbuild : P.get_all_files.foldl (fun d fd => dictInsert fd.path fd d) [] = S := by
    rw [buildStore_eq _ _ (by simp) hnodup, List.nil_append, hS]
  have hlookF : ∀ fd ∈ P.get_all_files, dictLookup fd.path S = some fd := by
    intro fd hfd
    rw [hS]
    exact assocLookup_of_mem _ _ hnodup hfd
  have hkeys : S.map (·.1) = K := by
    rw [hS, hK0]
    simp [List.map_map, Function.comp]
  have hsame : ∀ fd g, fd ∈ P.get_all_files → g ∈ P.get_all_files →
      fd.path = g.path → fd = g :=
    fun fd g h1 h2 hp => same_path_same_file _ _ _ hnodup h1 h2 hp
  have hXum : ∀ p, p ∈ ((P.cbct_files ++ optSlot P.ios_upper ++
      optSlot P.ios_lower ++ P.intraoral_photos ++ optSlot P.teleradiography ++
      optSlot P.orthopantomography).map (·.path)) →
      p ∉ P.unmatched_files.map (·.path) := by
    intro p h1 h2
    have hnd2 : (((P.cbct_files ++ optSlot P.ios_upper ++ optSlot P.ios_lower ++
        P.intraoral_photos ++ optSlot P.teleradiography ++
        optSlot P.orthopantomography).map (·.path)) ++
        P.unmatched_files.map (·.path)).Nodup := by
      rw [← List.map_append]
      exact hnodup
    exact List.disjoint_of_nodup_append hnd2 h1 h2
  have hMM_not_um : ∀ fd ∈ P.get_all_files,
      fd.status = MatchStatus.MATCHED ∨ fd.status = MatchStatus.MANUAL →
      fd.path ∉ U := by
    intro fd hfd hst hmem
    rw [hU0] at hmem
    obtain ⟨g, hg, hgp⟩ := List.mem_map.mp hmem
    have heq : fd = g := hsame fd g hfd (hsubUm g hg) hgp.symm
    rw [heq] at hst
    rcases hum g hg with h' | h' <;> rw [h'] at hst <;>
      rcases hst with h'' | h'' <;> simp at h''
  have hupper_good : ∀ occ, P.ios_upper = some occ →
      (occ.status = MatchStatus.MATCHED ∨ occ.status = MatchStatus.MANUAL) →
      goodFile occ .IOS_UPPER = true := by
    intro occ hup hst
    rw [hup] at hu
    simp only [upperWF, Bool.or_eq_true, Bool.and_eq_true, decide_eq_true_eq] at hu
    rcases hu with h | h
    · exact h
    · rw [h.2] at hst
      rcases hst with h' | h' <;> simp at h'
  have hupper_ambig : ∀ occ, P.ios_upper = some occ →
      ¬(occ.status = MatchStatus.MATCHED ∨ occ.status = MatchStatus.MANUAL) →
      occ.data_type = none ∧ occ.status = MatchStatus.AMBIGUOUS := by
    intro occ hup hst
    rw [hup] at hu
    simp only [upperWF, Bool.or_eq_true, Bool.and_eq_true, decide_eq_true_eq] at hu
    rcases hu with h | h
    · exact absurd (goodFile_spec occ _ h).2.1 hst
    · exact h
  have hamb_notU : ∀ occ, P.ios_upper = some occ → occ.path ∉ U := by
    intro occ hup hmem
    rw [hU0] at hmem
    exact hXum occ.path (by simp [List.mem_append, hup, optSlot]) hmem
  have hMent : (mkCacheEntry now sr P).matched_files =
      P.get_all_files.filterMap mkPair := mkCacheEntry_matched now sr P hnodup
  have hUent : (mkCacheEntry now sr P).unmatched_files = U := by
    rw [hU0]
    rfl
  have hCmem_good : ∀ fd ∈ P.get_all_files, ∀ dt, goodFile fd dt = true →
      fd.path ∈ C := by
    intro fd hfd dt hg
    rw [hC0]
    exact List.mem_append_left _ (mem_mkPair_keys _ fd dt hfd hg)
  have hCmem_um : ∀ g ∈ P.unmatched_files, g.path ∈ C := by
    intro g hg
    rw [hC0, hU0]
    exact List.mem_append_right _ (List.mem_map_of_mem _ hg)
  have hnc_amb : ∀ occ, P.ios_upper = some occ →
      ¬(occ.status = MatchStatus.MATCHED ∨ occ.status = MatchStatus.MANUAL) →
      occ.path ∉ C := by
    intro occ hup hst hmem
    rw [hC0] at hmem
    rcases List.mem_append.mp hmem with hm | hm
    · obtain ⟨g, hgF, hgp, hgst⟩ := mkPair_keys_inv _ _ hm
      have heq : g = occ := hsame g occ hgF (hsubU occ hup) hgp
      rw [heq] at hgst
      exact hst hgst
    · exact hamb_notU occ hup hm
  have e1 : (P.cbct_files.filterMap mkPair).foldl applyMatchedStep
      (⟨S, [], none, none, [], none, none, []⟩ : ApplyState) =
      ⟨S, P.cbct_files.map (·.path), none, none, [], none, none, []⟩ := by
    rw [foldMatched_cbct_seg _ _ hc fun fd hfd => hlookF fd (hsubC fd hfd)]
    simp
  have e2 : ((optSlot P.ios_upper).filterMap mkPair).foldl applyMatchedStep
      (⟨S, P.cbct_files.map (·.path), none, none, [], none, none, []⟩ : ApplyState) =
      ⟨S, P.cbct_files.map (·.path), upperRoute P.ios_upper none, none, [],
        none, none, []⟩ := by
    rw [foldMatched_upper_seg _ _ hu fun fd hfd => hlookF fd (hsubU fd hfd)]
  have e3 : ((optSlot P.ios_lower).filterMap mkPair).foldl applyMatchedStep
      (⟨S, P.cbct_files.map (·.path), upperRoute P.ios_upper none, none, [],
        none, none, []⟩ : ApplyState) =
      ⟨S, P.cbct_files.map (·.path), upperRoute P.ios_upper none,
        slotRoute P.ios_lower none, [], none, none, []⟩ := by
    rw [foldMatched_iosL_seg _ _ hl fun fd hfd => hlookF fd (hsubL fd hfd)]
  have e4 : (P.intraoral_photos.filterMap mkPair).foldl applyMatchedStep
      (⟨S, P.cbct_files.map (·.path), upperRoute P.ios_upper none,
        slotRoute P.ios_lower none, [], none, none, []⟩ : ApplyState) =
      ⟨S, P.cbct_files.map (·.path), upperRoute P.ios_upper none,
        slotRoute P.ios_lower none, P.intraoral_photos.map (·.path),
        none, none, []⟩ := by
    rw [foldMatched_photos_seg _ _ hph fun fd hfd => hlookF fd (hsubPh fd hfd)]
    simp
  have e5 : ((optSlot P.teleradiography).filterMap mkPair).foldl applyMatchedStep
      (⟨S, P.cbct_files.map (·.path), upperRoute P.ios_upper none,
        slotRoute P.ios_lower none, P.intraoral_photos.map (·.path),
        none, none, []⟩ : ApplyState) =
      ⟨S, P.cbct_files.map (·.path), upperRoute P.ios_upper none,
        slotRoute P.ios_lower none, P.intraoral_photos.map (·.path),
        slotRoute P.teleradiography none, none, []⟩ := by
    rw [foldMatched_tele_seg _ _ ht fun fd hfd => hlookF fd (hsubT fd hfd)]
  have e6 : ((optSlot P.orthopantomography).filterMap mkPair).foldl applyMatchedStep
      (⟨S, P.cbct_files.map (·.path), upperRoute P.ios_upper none,
        slotRoute P.ios_lower none, P.intraoral_photos.map (·.path),
        slotRoute P.teleradiography none, none, []⟩ : ApplyState) =
      ⟨S, P.cbct_files.map (·.path), upperRoute P.ios_upper none,
        slotRoute P.ios_lower none, P.intraoral_photos.map (·.path),
        slotRoute P.teleradiography none, slotRoute P.orthopantomography none,
        []⟩ := by
    rw [foldMatched_ortho_seg _ _ ho fun fd hfd => hlookF fd (hsubO fd hfd)]
  have h1 : (P.get_all_files.filterMap mkPair).foldl applyMatchedStep
      (⟨S, [], none, none, [], none, none, []⟩ : ApplyState) = stA := by
    rw [hstA]
    show ((P.cbct_files ++ optSlot P.ios_upper ++ optSlot P.ios_lower ++
      P.intraoral_photos ++ optSlot P.teleradiography ++
      optSlot P.orthopantomography ++ P.unmatched_files).filterMap
        mkPair).foldl applyMatchedStep
      (⟨S, [], none, none, [], none, none, []⟩ : ApplyState) = _
    simp only [List.filterMap_append, List.foldl_append]
    rw [e1, e2, e3, e4, e5, e6, filterMap_mkPair_unmatched _ hum, List.foldl_nil]
  have hsomeA : ∀ p ∈ U, (dictLookup p stA.store).isSome = true := by
    intro p hp
    rw [hU0] at hp
    obtain ⟨g, hg, rfl⟩ := List.mem_map.mp hp
    rw [hstA_store, hlookF g (hsubUm g hg)]
    rfl
  have hR2 := foldU_routes U stA hsomeA
  rw [← hst2] at hR2
  obtain ⟨hR2c, hR2u, hR2l, hR2p, hR2t, hR2o, hR2un⟩ := hR2
  have hsome2 : ∀ p ∈ K, (dictLookup p st2.store).isSome = true := by
    intro p hp
    rw [hK0] at hp
    obtain ⟨fd, hfd, rfl⟩ := List.mem_map.mp hp
    by_cases hUm : fd.path ∈ U
    · rw [hst2, foldU_wipes U stA fd.path fd hUm
        (by rw [hstA_store]; exact hlookF fd hfd)]
      rfl
    · rw [hst2, foldU_frame_lookup U stA fd.path hUm, hstA_store, hlookF fd hfd]
      rfl
  have hR3 := foldNew_routes C K st2 hsome2
  rw [← hst3] at hR3
  obtain ⟨hR3c, hR3u, hR3l, hR3p, hR3t, hR3o, hR3un⟩ := hR3
  have hkept3 : ∀ fd ∈ P.get_all_files, ∀ dt, goodFile fd dt = true →
      dictLookup fd.path st3.store = some fd := by
    intro fd hfd dt hg
    rw [hst3, foldNew_lookup_cached C K st2 fd.path (hCmem_good fd hfd dt hg),
      hst2, foldU_frame_lookup U stA fd.path
        (hMM_not_um fd hfd (goodFile_spec fd dt hg).2.1), hstA_store]
    exact hlookF fd hfd
  have hwiped3 : ∀ g ∈ P.unmatched_files,
      dictLookup g.path st3.store = some (wipeFd g) := by
    intro g hg
    rw [hst3, foldNew_lookup_cached C K st2 g.path (hCmem_um g hg), hst2]
    refine foldU_wipes U stA g.path g ?_ ?_
    · rw [hU0]
      exact List.mem_map_of_mem _ hg
    · rw [hstA_store]
      exact hlookF g (hsubUm g hg)
  have hf_cbct : resolveRefs st3.store st3.cbct = P.cbct_files := by
    have h3 : st3.cbct = P.cbct_files.map (·.path) := by
      rw [hR3c, hR2c, hstA_cbct]
    rw [h3, resolveRefs_map st3.store P.cbct_files id
      (fun fd hfd => hkept3 fd (hsubC fd hfd) .CBCT_DICOM (hc fd hfd)),
      List.map_id]
  have hf_ph : resolveRefs st3.store st3.photos = P.intraoral_photos := by
    have h3 : st3.photos = P.intraoral_photos.map (·.path) := by
      rw [hR3p, hR2p, hstA_photos]
    rw [h3, resolveRefs_map st3.store P.intraoral_photos id
      (fun fd hfd => hkept3 fd (hsubPh fd hfd) .INTRAORAL_PHOTO (hph fd hfd)),
      List.map_id]
  have hf_low : resolveRef st3.store st3.iosL = P.ios_lower := by
    have h3 : st3.iosL = slotRoute P.ios_lower none := by
      rw [hR3l, hR2l, hstA_iosL]
    rw [h3]
    rcases hlp : P.ios_lower with _ | fd
    · rfl
    · show dictLookup fd.path st3.store = some fd
      refine hkept3 fd (hsubL fd hlp) .IOS_LOWER ?_
      rw [hlp] at hl
      exact hl
  have hf_tele : resolveRef st3.store st3.tele = P.teleradiography := by
    have h3 : st3.tele = slotRoute P.teleradiography none := by
      rw [hR3t, hR2t, hstA_tele]
    rw [h3]
    rcases hlp : P.teleradiography with _ | fd
    · rfl
    · show dictLookup fd.path st3.store = some fd
      refine hkept3 fd (hsubT fd hlp) .TELERADIOGRAPHY ?_
      rw [hlp] at ht
      exact ht
  have hf_ortho : resolveRef st3.store st3.ortho = P.orthopantomography := by
    have h3 : st3.ortho = slotRoute P.orthopantomography none := by
      rw [hR3o, hR2o, hstA_ortho]
    rw [h3]
    rcases hlp : P.orthopantomography with _ | fd
    · rfl
    · show dictLookup fd.path st3.store = some fd
      refine hkept3 fd (hsubO fd hlp) .ORTHOPANTOMOGRAPHY ?_
      rw [hlp] at ho
      exact ho
  have hf_up : resolveRef st3.store st3.iosU = uKeep P.ios_upper := by
    have h3 : st3.iosU = upperRoute P.ios_upper none := by
      rw [hR3u, hR2u, hstA_iosU]
    rw [h3]
    rcases hup : P.ios_upper with _ | occ
    · rfl
    · by_cases hst : occ.status = MatchStatus.MATCHED ∨
          occ.status = MatchStatus.MANUAL
      · simp only [upperRoute, if_pos hst, uKeep]
        show dictLookup occ.path st3.store = some occ
        exact hkept3 occ (hsubU occ hup) .IOS_UPPER (hupper_good occ hup hst)
      · simp only [upperRoute, if_neg hst, uKeep]
        rfl
  have hfc : (P.cbct_files.map (·.path)).filter (fun p => decide (p ∉ C)) = [] := by
    refine List.filter_eq_nil_iff.mpr ?_
    intro q hq
    obtain ⟨fd, hfd, rfl⟩ := List.mem_map.mp hq
    simp [hCmem_good fd (hsubC fd hfd) .CBCT_DICOM (hc fd hfd)]
  have hfp : (P.intraoral_photos.map (·.path)).filter
      (fun p => decide (p ∉ C)) = [] := by
    refine List.filter_eq_nil_iff.mpr ?_
    intro q hq
    obtain ⟨fd, hfd, rfl⟩ := List.mem_map.mp hq
    simp [hCmem_good fd (hsubPh fd hfd) .INTRAORAL_PHOTO (hph fd hfd)]
  have hflw : ((optSlot P.ios_lower).map (·.path)).filter
      (fun p => decide (p ∉ C)) = [] := by
    rcases hlp : P.ios_lower with _ | fd
    · rfl
    · have hg : goodFile fd .IOS_LOWER = true := by
        rw [hlp] at hl
        exact hl
      simp [optSlot, hCmem_good fd (hsubL fd hlp) .IOS_LOWER hg]
  have hft : ((optSlot P.teleradiography).map (·.path)).filter
      (fun p => decide (p ∉ C)) = [] := by
    rcases hlp : P.teleradiography with _ | fd
    · rfl
    · have hg : goodFile fd .TELERADIOGRAPHY = true := by
        rw [hlp] at ht
        exact ht
      simp [optSlot, hCmem_good fd (hsubT fd hlp) .TELERADIOGRAPHY hg]
  have hfo : ((optSlot P.orthopantomography).map (·.path)).filter
      (fun p => decide (p ∉ C)) = [] := by
    rcases hlp : P.orthopantomography with _ | fd
    · rfl
    · have hg : goodFile fd .ORTHOPANTOMOGRAPHY = true := by
        rw [hlp] at ho
        exact ho
      simp [optSlot, hCmem_good fd (hsubO fd hlp) .ORTHOPANTOMOGRAPHY hg]
  have hfum : (P.unmatched_files.map (·.path)).filter
      (fun p => decide (p ∉ C)) = [] := by
    refine List.filter_eq_nil_iff.mpr ?_
    intro q hq
    obtain ⟨g, hg, rfl⟩ := List.mem_map.mp hq
    simp [hCmem_um g hg]
  have hfu : ((optSlot P.ios_upper).map (·.path)).filter
      (fun p => decide (p ∉ C)) = (uLost P.ios_upper).map (·.path) := by
    rcases hup : P.ios_upper with _ | occ
    · rfl
    · by_cases hst : occ.status = MatchStatus.MATCHED ∨
          occ.status = MatchStatus.MANUAL
      · have hg : goodFile occ .IOS_UPPER = true := hupper_good occ hup hst
        simp [optSlot, uLost, if_pos hst,
          hCmem_good occ (hsubU occ hup) .IOS_UPPER hg]
      · have hnc : occ.path ∉ C := hnc_amb occ hup hst
        simp [optSlot, uLost, if_neg hst, wipeFd, hnc]
  have hKfilter : K.filter (fun p => decide (p ∉ C)) =
      (uLost P.ios_upper).map (·.path) := by
    rw [hK0]
    show ((P.cbct_files ++ optSlot P.ios_upper ++ optSlot P.ios_lower ++
      P.intraoral_photos ++ optSlot P.teleradiography ++
      optSlot P.orthopantomography ++ P.unmatched_files).map (·.path)).filter
        (fun p => decide (p ∉ C)) = _
    simp only [List.map_append, List.filter_append]
    rw [hfc, hfu, hflw, hfp, hft, hfo, hfum]
    simp
  have hf_um : resolveRefs st3.store st3.unmatched =
      P.unmatched_files.map wipeFd ++ uLost P.ios_upper := by
    have h3 : st3.unmatched = U ++ (uLost P.ios_upper).map (·.path) := by
      rw [hR3un, hR2un, hstA_unmatched, hKfilter]
      simp
    rw [h3, resolveRefs_append]
    congr 1
    · rw [hU0]
      exact resolveRefs_map _ _ wipeFd hwiped3
    · rcases hup : P.ios_upper with _ | occ
      · rfl
      · by_cases hst : occ.status = MatchStatus.MATCHED ∨
            occ.status = MatchStatus.MANUAL
        · simp [uLost, if_pos hst, resolveRefs]
        · have hlook3 : dictLookup occ.path st3.store = some (wipeFd occ) := by
            rw [hst3]
            refine foldNew_wipes C K st2 occ.path occ ?_ (hnc_amb occ hup hst) ?_
            · rw [hK0]
              exact List.mem_map_of_mem _ (hsubU occ hup)
            · rw [hst2, foldU_frame_lookup U stA occ.path (hamb_notU occ hup),
                hstA_store]
              exact hlookF occ (hsubU occ hup)
          simp only [uLost, if_neg hst, List.map_cons, List.map_nil, resolveRefs,
            List.filterMap_cons, List.filterMap_nil]
          rw [show (wipeFd occ).path = occ.path from rfl, hlook3]
  simp only [apply_cached_matches]
  rw [hMent, hUent, hbuild, hkeys, h1, ← hC0, ← hst2, ← hst3,
    hf_cbct, hf_up, hf_low, hf_ph, hf_tele, hf_ortho, hf_um]
  rfl

theorem categorizeStep_folder_path (pd : PatientData) (fd : FileData) :
    (categorizeStep pd fd).folder_path = pd.folder_path := by
  unfold categorizeStep
  repeat' split
  all_goals rfl

theorem categorize_folder_path (files : List (String × FSFile)) (pd : PatientData) :
    (categorize_main_folder_files files pd).folder_path = pd.folder_path := by
  induction files generalizing pd with
  | nil => rfl
  | cons pf rest ih =>
    show (categorize_main_folder_files rest _).folder_path = _
    rw [ih, categorizeStep_folder_path]

theorem fresh_folder_path (fs : PatientFolderFS) :
    (analyze_patient_folder_fresh fs).folder_path = fs.folder_path := by
  simp only [analyze_patient_folder_fresh]
  split
  · rfl
  · rw [categorize_folder_path]
    split <;> split <;> rfl

/-- **C2** (corrected).  Caching a well-formed classification and re-serving
the unchanged folder from the cache preserves the manual-completion flags (the
record's other header fields are untouched) and every `MATCHED`/`MANUAL` typed
file in its type-determined container, verbatim; the ambiguous `ios_upper`
occupant is not preserved — it comes back wiped (`UNMATCHED`, no type,
confidence 0) at the end of `unmatched_files` — and previously unmatched files
come back wiped as well.  The original claim's promise that the entire
aggregate, including `AMBIGUOUS` markers, survives the round-trip is false. -/
theorem C2_roundtrip_amended (t1 t2 : ℚ) (sr : StatResult) (fs : PatientFolderFS)
    (content : List (String × CacheEntry))
    (hsr : sr ≠ StatResult.err)
    (hage : qsub t2 t1 < qmul (qmul (qmul 30 24) 60) 60)
    (hnodup : ((analyze_patient_folder_fresh fs).get_all_files.map (·.path)).Nodup)
    (hwf : WFClassified (analyze_patient_folder_fresh fs) = true) :
    (get_cached_matches_core t2 sr fs
        (cache_matches_core t1 sr (analyze_patient_folder_fresh fs) content)).1 =
      some { analyze_patient_folder_fresh fs with
        ios_upper := uKeep (analyze_patient_folder_fresh fs).ios_upper,
        unmatched_files :=
          (analyze_patient_folder_fresh fs).unmatched_files.map wipeFd ++
            uLost (analyze_patient_folder_fresh fs).ios_upper } := by
  have hfp : (analyze_patient_folder_fresh fs).folder_path = fs.folder_path :=
    fresh_folder_path fs
  have hfind : dictLookup fs.folder_path
      (dictInsert (analyze_patient_folder_fresh fs).folder_path
        (mkCacheEntry t1 sr (analyze_patient_folder_fresh fs)) content) =
      some (mkCacheEntry t1 sr (analyze_patient_folder_fresh fs)) := by
    rw [hfp]
    exact dictLookup_insert_self _ _ _
  have hvalid : (mkCacheEntry t1 sr (analyze_patient_folder_fresh fs)).is_valid
      (get_folder_hash t2 sr) t2 = true := by
    cases sr with
    | ok m s w =>
      unfold CacheEntry.is_valid
      rw [if_neg (not_not.mpr (show (mkCacheEntry t1 (.ok m s w)
        (analyze_patient_folder_fresh fs)).folder_hash =
          get_folder_hash t2 (.ok m s w) from rfl))]
      exact decide_eq_true hage
    | err => exact absurd rfl hsr
  simp only [get_cached_matches_core, cache_matches_core, get_cache_key, hfind,
    hvalid, not_true, if_false]
  rw [apply_cache_roundtrip t1 sr _ hnodup hwf]

theorem C2_witness :
    (srIos1 ≠ StatResult.err ∧
     qsub 1 0 < qmul (qmul (qmul 30 24) 60) 60 ∧
     ((analyze_patient_folder_fresh fsIos1).get_all_files.map (·.path)).Nodup ∧
     WFClassified (analyze_patient_folder_fresh fsIos1) = true) ∧
    (get_cached_matches_core 1 srIos1 fsIos1
        (cache_matches_core 0 srIos1 (analyze_patient_folder_fresh fsIos1) [])).1 =
      some { analyze_patient_folder_fresh fsIos1 with
        ios_upper := uKeep (analyze_patient_folder_fresh fsIos1).ios_upper,
        unmatched_files :=
          (analyze_patient_folder_fresh fsIos1).unmatched_files.map wipeFd ++
            uLost (analyze_patient_folder_fresh fsIos1).ios_upper } :=
  ⟨⟨by decide, by decide, by decide, by decide⟩,
   C2_roundtrip_amended 0 1 srIos1 fsIos1 [] (by decide) (by decide) (by decide)
     (by decide)⟩
